import Mathlib

/-! # Verification of the shewaber-ocr receipt extraction engine

Shallow embedding of the receipt-OCR backend of this repository:

* `parseReceiptText` — the multi-strategy text-extraction engine of the OCR
  service (store name, purchase date, total amount, line items), translated
  line-for-line from the TypeScript source.
* the recognition adapter (`OCRService` lifecycle: lazy engine creation and
  the self-healing discard of a faulted engine instance),
* the BullMQ worker's per-job control flow (file verification with the
  upload-root fallback path, progress milestones, cleanup on failure).

Modelling conventions:
* JavaScript strings are `List Char`; splitting, trimming and the concrete
  regular expressions of the source are implemented directly over `List Char`
  with a small backtracking matcher whose alternative order mirrors a JS
  regex engine (leftmost match, greedy/lazy quantifier priority).
* JS numbers produced by `parseInt`/`parseFloat` of the decimal substrings
  this code captures are modelled exactly: quantities as `ℕ`, prices and
  amounts as the exact decimal type `Dec` (an integer numerator over a power
  of ten), with `Dec.toQ : Dec → ℚ` as the value view used in statements.
* JS truthiness of possibly-unset variables (`undefined`, `''`, `0`) is
  modelled with explicit `Option` values plus the truthiness tests the
  source relies on.
* `new Date(string)` is modelled for the hyphenated year-month-day strings
  this parser itself constructs; all other strings (bare month names, slash
  or short-year forms, which V8 also rejects or which the year guard below
  filters) are modelled as an invalid date. The engine-local clock year
  (`new Date().getFullYear()`) is an explicit parameter `curYear`.
-/

namespace Shewaber

/-! ## Characters, strings and JS primitives -/

/-- JS `\d`: ASCII digit. -/
def isDigitC (c : Char) : Bool := c.isDigit

/-- JS `\s` restricted to the ASCII whitespace the inputs of this code can
contain (space, tab, newline, carriage return, vertical tab, form feed). -/
def isWsC (c : Char) : Bool :=
  c == ' ' || c == '\t' || c == '\n' || c == '\r' || c == '\x0b' || c == '\x0c'

/-- JS `\w`: letters, digits and underscore. -/
def isWordC (c : Char) : Bool := c.isAlphanum || c == '_'

/-- The character list of a string literal. -/
def chars (s : String) : List Char := s.toList

/-- Rebuild a string from characters. -/
def str (cs : List Char) : String := String.mk cs

/-- Lower-case a character list (JS `/i` matching and `toLowerCase()`). -/
def lowerCs (cs : List Char) : List Char := cs.map Char.toLower

/-- JS `String.prototype.trim()`. -/
def trimCs (cs : List Char) : List Char :=
  ((cs.dropWhile isWsC).reverse.dropWhile isWsC).reverse

/-- JS `String.prototype.split(sep)` for a one-character separator. -/
def splitCh (sep : Char) : List Char → List (List Char)
  | [] => [[]]
  | c :: r =>
    if c == sep then [] :: splitCh sep r
    else
      match splitCh sep r with
      | h :: t => (c :: h) :: t
      | [] => [[c]]

/-- JS `parseInt` on an all-digit capture. -/
def natOfDigits (cs : List Char) : Nat :=
  cs.foldl (fun n c => 10 * n + (c.toNat - 48)) 0

/-- Decimal digit characters of a natural number. -/
def natDigits (n : Nat) : List Char := Nat.toDigits 10 n

/-- Substring test: does `sub` occur contiguously inside `hay`? -/
def hasSub (hay sub : List Char) : Bool :=
  hay.tails.any (fun t => sub.isPrefixOf t)

/-- Case-insensitive substring test against a lower-case needle. -/
def hasSubCI (hay : List Char) (needle : String) : Bool :=
  hasSub (lowerCs hay) (chars needle)

/-- Case-insensitive alternation of plain substrings (`/a|b|c/i.test`). -/
def anySubCI (hay : List Char) (needles : List String) : Bool :=
  needles.any (hasSubCI hay)

/-! ## Exact JS decimal numbers

`Dec` represents `num / 10 ^ exp`.  All the numbers this code manipulates
come from `parseFloat` of captured decimal substrings, which such a pair
represents exactly; ordering and equality agree with the JS number
comparisons of the source for these values. -/

structure Dec where
  num : Int
  exp : Nat
deriving DecidableEq, Repr

namespace Dec

/-- The rational value of a decimal. -/
def toQ (d : Dec) : ℚ := (d.num : ℚ) / (10 : ℚ) ^ d.exp

/-- A natural number as a decimal. -/
def ofNat (n : Nat) : Dec := ⟨n, 0⟩

/-- Comparison by cross multiplication (exact). -/
def blt (a b : Dec) : Bool := a.num * (10 : Int) ^ b.exp < b.num * (10 : Int) ^ a.exp

/-- Equality of values (JS `===` on numbers). -/
def beqv (a b : Dec) : Bool := a.num * (10 : Int) ^ b.exp == b.num * (10 : Int) ^ a.exp

/-- Exact difference. -/
def sub (a b : Dec) : Dec :=
  ⟨a.num * (10 : Int) ^ b.exp - b.num * (10 : Int) ^ a.exp, a.exp + b.exp⟩

/-- Exact sum. -/
def add (a b : Dec) : Dec :=
  ⟨a.num * (10 : Int) ^ b.exp + b.num * (10 : Int) ^ a.exp, a.exp + b.exp⟩

/-- Absolute value. -/
def dabs (a : Dec) : Dec := ⟨|a.num|, a.exp⟩

/-- Is the value zero (JS falsiness of a number)? -/
def isZero (a : Dec) : Bool := a.num == 0

theorem blt_iff (a b : Dec) : blt a b = true ↔ a.toQ < b.toQ := by
  unfold blt toQ
  rw [div_lt_div_iff (by positivity) (by positivity)]
  rw [decide_eq_true_eq]
  constructor
  · intro h
    calc (a.num : ℚ) * (10:ℚ) ^ b.exp = ((a.num * (10:Int) ^ b.exp : Int) : ℚ) := by push_cast; ring
    _ < ((b.num * (10:Int) ^ a.exp : Int) : ℚ) := by exact_mod_cast h
    _ = (b.num : ℚ) * (10:ℚ) ^ a.exp := by push_cast; ring
  · intro h
    have h2 : ((a.num * (10:Int) ^ b.exp : Int) : ℚ) < ((b.num * (10:Int) ^ a.exp : Int) : ℚ) := by
      push_cast
      calc (a.num : ℚ) * (10:ℚ) ^ b.exp < (b.num : ℚ) * (10:ℚ) ^ a.exp := h
      _ = _ := by ring
    exact_mod_cast h2

theorem isZero_iff (a : Dec) : isZero a = true ↔ a.toQ = 0 := by
  unfold isZero toQ
  rw [beq_iff_eq, div_eq_zero_iff]
  constructor
  · intro h; left; exact_mod_cast h
  · rintro (h | h)
    · exact_mod_cast h
    · exact absurd h (by positivity)

end Dec

/-- JS `parseFloat` on the capture shapes this code produces
(`\d+`, `\d+.`, `\d+.\d+`): integer digits, an optional dot, fraction
digits; anything after is ignored. -/
def parseFloatD (cs : List Char) : Dec :=
  let ip := cs.takeWhile isDigitC
  let rest := cs.dropWhile isDigitC
  let fp :=
    match rest with
    | '.' :: r => r.takeWhile isDigitC
    | _ => []
  ⟨(natOfDigits ip) * (10 : Int) ^ fp.length + natOfDigits fp, fp.length⟩

/-! ## A small backtracking regex core

A pattern piece is a function from an input suffix to the list of suffixes
remaining after each way it can match, ordered the way a JS backtracking
engine explores them: concatenation nests the right piece inside the left,
alternation tries the left branch first, greedy pieces yield the longest
consumption first and lazy pieces the shortest. -/

abbrev M := List Char → List (List Char)

/-- Empty pattern. -/
def mEps : M := fun cs => [cs]

/-- Concatenation. -/
def mSeq (a b : M) : M := fun cs => (a cs).flatMap b

/-- Alternation, left first. -/
def mAlt (a b : M) : M := fun cs => a cs ++ b cs

/-- Single character class. -/
def mCls (p : Char → Bool) : M := fun cs =>
  match cs with
  | c :: r => if p c then [r] else []
  | [] => []

/-- Literal character. -/
def mLit (c : Char) : M := mCls (fun d => d == c)

/-- Case-sensitive literal word. -/
def mStr (s : String) : M := fun cs =>
  if (chars s).isPrefixOf cs then [cs.drop (chars s).length] else []

/-- Case-insensitive literal word. -/
def mStrCI (s : String) : M := fun cs =>
  if (lowerCs (chars s)).isPrefixOf (lowerCs cs) then [cs.drop (chars s).length] else []

/-- Greedy `e?`. -/
def mOpt (a : M) : M := fun cs => a cs ++ [cs]

/-- Greedy `[c]*`. -/
def mStarCls (p : Char → Bool) : M := fun cs =>
  let run := (cs.takeWhile p).length
  (List.range (run + 1)).map (fun j => cs.drop (run - j))

/-- Greedy `[c]{lo,hi}`. -/
def mRepCls (p : Char → Bool) (lo hi : Nat) : M := fun cs =>
  let run := min hi (cs.takeWhile p).length
  if run < lo then [] else (List.range (run - lo + 1)).map (fun j => cs.drop (run - j))

/-- Greedy `[c]+`. -/
def mPlusCls (p : Char → Bool) : M := fun cs =>
  let run := (cs.takeWhile p).length
  if run == 0 then [] else (List.range run).map (fun j => cs.drop (run - j))

/-- Lazy `.+?` (dot does not cross a newline). -/
def mLazyPlus : M := fun cs =>
  let run := (cs.takeWhile (fun c => c != '\n')).length
  (List.range run).map (fun j => cs.drop (j + 1))

/-- End anchor `$`. -/
def mEnd : M := fun cs => if cs.isEmpty then [cs] else []

/-- Unanchored test (`re.test(s)` without captures). -/
def mSearch (m : M) (cs : List Char) : Bool :=
  cs.tails.any (fun t => !(m t).isEmpty)

/-- Anchored test (a `^…` pattern). -/
def mStartTest (m : M) (cs : List Char) : Bool := !(m cs).isEmpty

/-- First full match at one position of `pre (grp) post`, returning the text
of the single capturing group; alternatives are explored in engine order. -/
def mTryCap (pre grp post : M) (t : List Char) : Option (List Char) :=
  (pre t).findSome? (fun r1 =>
    (grp r1).findSome? (fun r2 =>
      if (post r2).isEmpty then none
      else some (r1.take (r1.length - r2.length))))

/-- Leftmost unanchored search with one capturing group. -/
def mSearchCap (pre grp post : M) (cs : List Char) : Option (List Char) :=
  cs.tails.findSome? (mTryCap pre grp post)

/-- Leftmost unanchored search returning the match start index as well. -/
def mSearchCapIdx (pre grp post : M) (cs : List Char) : Option (Nat × List Char) :=
  (List.range (cs.length + 1)).findSome? (fun i =>
    (mTryCap pre grp post (cs.drop i)).map (fun c => (i, c)))

/-- Whitespace run `\s*`. -/
def wsM : M := mStarCls isWsC

/-- Whitespace run `\s+`. -/
def ws1M : M := mSeq (mCls isWsC) wsM

/-- Digits `\d+`. -/
def digitsM : M := mPlusCls isDigitC

/-- Greedy `.*` (no newline). -/
def dotStarM : M := mStarCls (fun c => c != '\n')

/-! ## Line splitting

`parseReceiptText` begins with
`text.split('\n').map(l => l.trim()).filter(l => l.length > 0)`. -/

/-- The non-empty trimmed lines of the raw OCR text. -/
def splitLines (text : String) : List (List Char) :=
  ((splitCh '\n' (chars text)).map trimCs).filter (fun l => !l.isEmpty)

/-! ## Store name extraction

Source: `parseReceiptText`, store-name section — the TIN marker scan, the
word-geometry top-of-page reconstruction and the keyword/length fallback. -/

/-- Optional `[.:]`. -/
def dotColonOpt : M := mOpt (mCls (fun c => c == '.' || c == ':'))

/-- Optional `[:\-]`. -/
def colonDashOpt : M := mOpt (mCls (fun c => c == ':' || c == '-'))

/-- `/TIN\s*:?\s*[:\-]?\s*\d+/i`. -/
def tinPat1 : M :=
  mSeq (mStrCI "TIN") (mSeq wsM (mSeq (mOpt (mLit ':')) (mSeq wsM
    (mSeq colonDashOpt (mSeq wsM digitsM)))))

/-- Common tail `[.:]?\s*:?\s*\d+` of the remaining TIN patterns. -/
def tinTailM : M :=
  mSeq dotColonOpt (mSeq wsM (mSeq (mOpt (mLit ':')) (mSeq wsM digitsM)))

/-- `/TIN\s+NO[.:]?\s*:?\s*\d+/i`. -/
def tinPat2 : M := mSeq (mStrCI "TIN") (mSeq ws1M (mSeq (mStrCI "NO") tinTailM))

/-- `/TIN\s+NUMBER[.:]?\s*:?\s*\d+/i`. -/
def tinPat3 : M := mSeq (mStrCI "TIN") (mSeq ws1M (mSeq (mStrCI "NUMBER") tinTailM))

/-- `/TAX\s+ID[.:]?\s*:?\s*\d+/i`. -/
def tinPat4 : M := mSeq (mStrCI "TAX") (mSeq ws1M (mSeq (mStrCI "ID") tinTailM))

/-- `/TAX\s+IDENTIFICATION\s+NUMBER[.:]?\s*:?\s*\d+/i`. -/
def tinPat5 : M :=
  mSeq (mStrCI "TAX") (mSeq ws1M (mSeq (mStrCI "IDENTIFICATION")
    (mSeq ws1M (mSeq (mStrCI "NUMBER") tinTailM))))

/-- Does any of the five `tinPatterns` match the line? -/
def tinTest (l : List Char) : Bool :=
  [tinPat1, tinPat2, tinPat3, tinPat4, tinPat5].any (fun m => mSearch m l)

/-- Date separator class `[\/\-]`. -/
def sepDM : M := mCls (fun c => c == '/' || c == '-')

/-- `\d{1,2}[\/\-]\d{1,2}[\/\-]\d{2,4}` — the numeric date shape. -/
def dateLeadM : M :=
  mSeq (mRepCls isDigitC 1 2) (mSeq sepDM (mSeq (mRepCls isDigitC 1 2)
    (mSeq sepDM (mRepCls isDigitC 2 4))))

/-- `/^\d{1,2}[\/\-]\d{1,2}[\/\-]\d{2,4}/` — line starts like a date. -/
def dateLeadTest (l : List Char) : Bool := mStartTest dateLeadM l

/-- `/TOTAL|AMOUNT|SUM|DATE|TAX|SUB|PHONE|TEL|TIN/i`. -/
def metaKwTest (l : List Char) : Bool :=
  anySubCI l ["total", "amount", "sum", "date", "tax", "sub", "phone", "tel", "tin"]

/-- Two case-insensitive words separated by `\s+`. -/
def wordPairM (a b : String) : M := mSeq (mStrCI a) (mSeq ws1M (mStrCI b))

/-- `/powered\s+by|thank\s+you|visit\s+us|website|www\.|http/i`. -/
def footerTest (l : List Char) : Bool :=
  mSearch (wordPairM "powered" "by") l || mSearch (wordPairM "thank" "you") l ||
  mSearch (wordPairM "visit" "us") l || hasSubCI l "website" || hasSubCI l "www." ||
  hasSubCI l "http"

/-- `/^\d+$/`. -/
def allDigitsTest (l : List Char) : Bool := !l.isEmpty && l.all isDigitC

/-- Characters kept by `replace(/[^\w\s&'.-]/g, '')`. -/
def keepNameChar (c : Char) : Bool :=
  isWordC c || isWsC c || c == '&' || c == '\'' || c == '.' || c == '-'

/-- `line.replace(/[^\w\s&'.-]/g, '').trim()` — the store-name cleanup. -/
def cleanStore (l : List Char) : List Char := trimCs (l.filter keepNameChar)

/-- The checks the line after a TIN marker must pass to become the store
name: length 3–60, not date-shaped, no metadata keyword, no footer phrase,
not all digits. -/
def tinNextOk (next : List Char) : Bool :=
  decide (3 ≤ next.length) && decide (next.length ≤ 60) &&
  !dateLeadTest next && !metaKwTest next && !footerTest next && !allDigitsTest next

/-- The TIN scan: for each line except the last, if a TIN pattern matches
and the following line qualifies, that following line (cleaned) is the
store name; otherwise move on. -/
def tinStoreScan : List (List Char) → Option (List Char)
  | a :: b :: rest =>
    let nx := trimCs b
    if tinTest a && tinNextOk nx then some (cleanStore nx) else tinStoreScan (b :: rest)
  | _ => none

/-! ### Word geometry (tesseract word boxes) -/

/-- The bounding-box field shapes `getY`/`getX` probe (`y0`/`top`/`[1]`,
`x0`/`left`/`[0]`). -/
structure Bbox where
  x0 : Option Dec
  y0 : Option Dec
  left : Option Dec
  top : Option Dec
  arr0 : Option Dec
  arr1 : Option Dec
deriving DecidableEq

/-- A recognized word: text, an optional first-symbol text fallback, an
optional bounding box and an optional confidence. -/
structure OcrWord where
  text : String
  sym0 : Option String
  bbox : Option Bbox
  confidence : Option Dec
deriving DecidableEq

/-- `getY`: `bbox?.y0`, else `bbox?.top`, else `bbox?.[1]`, else 0. -/
def getY (w : OcrWord) : Dec :=
  match w.bbox with
  | some b =>
    match b.y0 with
    | some v => v
    | none =>
      match b.top with
      | some v => v
      | none =>
        match b.arr1 with
        | some v => v
        | none => ⟨0, 0⟩
  | none => ⟨0, 0⟩

/-- `getX`: `bbox?.x0`, else `bbox?.left`, else `bbox?.[0]`, else 0. -/
def getX (w : OcrWord) : Dec :=
  match w.bbox with
  | some b =>
    match b.x0 with
    | some v => v
    | none =>
      match b.left with
      | some v => v
      | none =>
        match b.arr0 with
        | some v => v
        | none => ⟨0, 0⟩
  | none => ⟨0, 0⟩

/-- `word.text || word.symbols?.[0]?.text || ''`. -/
def wordTextOf (w : OcrWord) : List Char :=
  if w.text == "" then
    match w.sym0 with
    | some s => chars s
    | none => []
  else chars w.text

/-- The sort comparator: same line (vertical distance < 10) compares by x,
otherwise by y; `wordLe a b` means the comparator is ≤ 0, i.e. a stable
sort keeps `a` before `b`. -/
def wordLe (a b : OcrWord) : Bool :=
  if Dec.blt (Dec.dabs (Dec.sub (getY a) (getY b))) ⟨10, 0⟩ then
    !Dec.blt (getX b) (getX a)
  else !Dec.blt (getY b) (getY a)

/-- Filter out words with blank text, then stable-sort by the comparator. -/
def sortedWordsOf (ws : List OcrWord) : List OcrWord :=
  (ws.filter (fun w => !(wordTextOf w).isEmpty && !(trimCs (wordTextOf w)).isEmpty)).mergeSort wordLe

/-- The words of the top 20% of the page (`topThreshold + 50` tolerance). -/
def topWordsOf (sw : List OcrWord) : List OcrWord :=
  let thr : Dec :=
    if sw.length > 0 then getY (sw.getD ((sw.length * 2) / 10) ⟨"", none, none, none⟩)
    else ⟨0, 0⟩
  sw.filter (fun w => !Dec.blt (Dec.add thr ⟨50, 0⟩) (getY w))

/-- `parts.join(' ')`. -/
def joinSp (parts : List (List Char)) : List Char := List.intercalate [' '] parts

/-- Group the first 20 top words into lines: a vertical jump of more than
15 units starts a new line. -/
def groupGo : List OcrWord → List (List Char) → List (List Char) → Dec → List (List Char)
  | [], acc, cur, _ => if cur.isEmpty then acc else acc ++ [joinSp cur]
  | w :: rest, acc, cur, lastY =>
    let wt := trimCs (wordTextOf w)
    if wt.isEmpty then groupGo rest acc cur lastY
    else
      let wy := getY w
      if !Dec.blt lastY ⟨0, 0⟩ && Dec.blt ⟨15, 0⟩ (Dec.dabs (Dec.sub wy lastY)) then
        groupGo rest (if cur.isEmpty then acc else acc ++ [joinSp cur]) [wt] wy
      else groupGo rest acc (cur ++ [wt]) wy

/-- The reconstructed top-of-page lines. -/
def topLinesOf (ws : List OcrWord) : List (List Char) :=
  groupGo ((topWordsOf (sortedWordsOf ws)).take 20) [] [] ⟨-1, 0⟩

/-- JS truthiness of the `storeName` variable (`''` is falsy). -/
def strTruthy : Option (List Char) → Bool
  | some l => !l.isEmpty
  | none => false

/-- `lineWords.reduce((sum, w) => sum + (w.confidence || 0), 0)`. -/
def lineConfSum (lws : List OcrWord) : Dec :=
  lws.foldl (fun s w => Dec.add s (match w.confidence with | some c => c | none => ⟨0, 0⟩)) ⟨0, 0⟩

/-- `avgConfidence > 80` where `avgConfidence` is `sum / length` when the
line has words and 0 otherwise; the division is compared exactly by cross
multiplication. -/
def avgConfGt80 (lws : List OcrWord) : Bool :=
  if lws.length > 0 then Dec.blt ⟨80 * lws.length, 0⟩ (lineConfSum lws) else false

/-- The confidence-driven scan of the first five top lines: skip
date/metadata/footer shaped or out-of-size lines, otherwise take the line
as store name and stop when its words average confidence above 80 or it is
one of the first two top lines (otherwise keep scanning and overwriting). -/
def confGo (full : List (List Char)) (topWs : List OcrWord) :
    List (List Char) → Option (List Char) → Option (List Char)
  | [], st => st
  | l :: rest, st =>
    let cl := trimCs l
    if dateLeadTest cl || metaKwTest cl || footerTest cl ||
        decide (cl.length < 3) || decide (60 < cl.length) then
      confGo full topWs rest st
    else
      let lws := topWs.filter (fun w => hasSub l (trimCs (wordTextOf w)))
      if decide (3 ≤ cl.length) && decide (cl.length ≤ 60) then
        let st' := some (cleanStore cl)
        if avgConfGt80 lws || decide (full.indexOf l < 2) then st'
        else confGo full topWs rest st'
      else confGo full topWs rest st

/-- The word-geometry store-name path: the TIN scan over the reconstructed
top lines, then (if still falsy) the confidence scan. -/
def wordStorePath (ws : List OcrWord) (st : Option (List Char)) : Option (List Char) :=
  let tls := topLinesOf ws
  let st1 :=
    match tinStoreScan tls with
    | some v => some v
    | none => st
  if strTruthy st1 then st1
  else confGo tls (topWordsOf (sortedWordsOf ws)) (tls.take 5) st1

/-- `/(STORE|MARKET|RESTAURANT|SHOP|SUPERMARKET|GROCERY)/i`. -/
def storeKwTest (l : List Char) : Bool :=
  anySubCI l ["store", "market", "restaurant", "shop", "supermarket", "grocery"]

/-- The raw-line fallback: the first of the first five lines that matches
the store keyword pattern or has length strictly between 5 and 50. -/
def storeFallback (lines : List (List Char)) : Option (List Char) :=
  (lines.take 5).findSome? (fun l =>
    if storeKwTest l || (decide (5 < l.length) && decide (l.length < 50)) then
      some (cleanStore l)
    else none)

/-- Full store-name resolution: TIN scan over the raw lines, then (while
the current value is falsy) the word-geometry path, then the raw-line
fallback. -/
def extractStoreName (lines : List (List Char)) (words : Option (List OcrWord)) :
    Option (List Char) :=
  let st0 := tinStoreScan lines
  let st1 :=
    if strTruthy st0 then st0
    else
      match words with
      | some ws => if ws.length > 0 then wordStorePath ws st0 else st0
      | none => st0
  if strTruthy st1 then st1
  else
    match storeFallback lines with
    | some v => some v
    | none => st1

/-! ## Purchase date extraction

Source: `parseReceiptText`, date section — five shape patterns tried per
line in order, label/time stripping, two-digit-year normalization,
day-first slash parsing, then the calendar and year-range validation. -/

/-- A calendar date (the valid `Date` the parser stores). -/
structure CalDate where
  year : Nat
  month : Nat
  day : Nat
deriving DecidableEq

/-- Gregorian leap year. -/
def isLeap (y : Nat) : Bool := (y % 4 == 0 && y % 100 != 0) || y % 400 == 0

/-- Days of a month. -/
def daysInMonth (y m : Nat) : Nat :=
  if m == 2 then (if isLeap y then 29 else 28)
  else if m == 4 || m == 6 || m == 9 || m == 11 then 30
  else 31

/-- Model of JS `new Date(string)` for the year-month-day hyphen strings
this parser constructs: a 4-digit year, 1–2 digit month and day, all
validated against the calendar; every other string is an invalid date. -/
def jsNewDate (cs : List Char) : Option CalDate :=
  match splitCh '-' cs with
  | [ys, ms, ds] =>
    if ys.length == 4 && ys.all isDigitC &&
        decide (1 ≤ ms.length) && decide (ms.length ≤ 2) && ms.all isDigitC &&
        decide (1 ≤ ds.length) && decide (ds.length ≤ 2) && ds.all isDigitC then
      let y := natOfDigits ys
      let m := natOfDigits ms
      let d := natOfDigits ds
      if decide (1 ≤ m) && decide (m ≤ 12) && decide (1 ≤ d) &&
          decide (d ≤ daysInMonth y m) then some ⟨y, m, d⟩
      else none
    else none
  | _ => none

/-- Optional trailing time `(?:\s+\d{1,2}\s*:\s*\d{1,2})?`. -/
def timeOptM : M :=
  mOpt (mSeq ws1M (mSeq (mRepCls isDigitC 1 2) (mSeq wsM (mSeq (mLit ':')
    (mSeq wsM (mRepCls isDigitC 1 2))))))

/-- `(Jan|Feb|Mar|Apr|May|Jun|Jul|Aug|Sep|Oct|Nov|Dec)` case-insensitive. -/
def monthM : M :=
  mAlt (mStrCI "Jan") (mAlt (mStrCI "Feb") (mAlt (mStrCI "Mar") (mAlt (mStrCI "Apr")
    (mAlt (mStrCI "May") (mAlt (mStrCI "Jun") (mAlt (mStrCI "Jul") (mAlt (mStrCI "Aug")
      (mAlt (mStrCI "Sep") (mAlt (mStrCI "Oct") (mAlt (mStrCI "Nov") (mStrCI "Dec")))))))))))

/-- `[\s,]+`. -/
def sepSp1M : M := mPlusCls (fun c => isWsC c || c == ',')

/-- `YYYY[\/\-]M{1,2}[\/\-]D{1,2}` shape of the third pattern. -/
def ymdM : M :=
  mSeq (mRepCls isDigitC 4 4) (mSeq sepDM (mSeq (mRepCls isDigitC 1 2)
    (mSeq sepDM (mRepCls isDigitC 1 2))))

/-- Group-1 capture of `/DATE\s*:?\s*(\d{1,2}[\/\-]\d{1,2}[\/\-]\d{2,4})(time)?/i`. -/
def dateCand1 (l : List Char) : Option (List Char) :=
  mSearchCap (mSeq (mStrCI "DATE") (mSeq wsM (mSeq (mOpt (mLit ':')) wsM))) dateLeadM timeOptM l

/-- Group-1 capture of `/(\d{1,2}[\/\-]\d{1,2}[\/\-]\d{2,4})(time)?/`. -/
def dateCand2 (l : List Char) : Option (List Char) :=
  mSearchCap mEps dateLeadM timeOptM l

/-- Group-1 capture of `/(\d{4}[\/\-]\d{1,2}[\/\-]\d{1,2})/`. -/
def dateCand3 (l : List Char) : Option (List Char) :=
  mSearchCap mEps ymdM mEps l

/-- Group-1 capture (the month name) of
`/(Jan|…|Dec)[\s,]+(\d{1,2})[\s,]+(\d{2,4})/i`. -/
def dateCand4 (l : List Char) : Option (List Char) :=
  mSearchCap mEps monthM (mSeq sepSp1M (mSeq (mRepCls isDigitC 1 2)
    (mSeq sepSp1M (mRepCls isDigitC 2 4)))) l

/-- Group-1 capture (the day digits) of
`/(\d{1,2})\s+(Jan|…|Dec)[\s,]+(\d{2,4})/i`. -/
def dateCand5 (l : List Char) : Option (List Char) :=
  mSearchCap mEps (mRepCls isDigitC 1 2) (mSeq ws1M (mSeq monthM
    (mSeq sepSp1M (mRepCls isDigitC 2 4)))) l

/-- The `dateString` each of the five patterns hands to parsing (its first
capture group), in pattern order. -/
def dateCands (l : List Char) : List (Option (List Char)) :=
  [dateCand1 l, dateCand2 l, dateCand3 l, dateCand4 l, dateCand5 l]

/-- `padStart(2, '0')`. -/
def padTo2 (cs : List Char) : List Char := if cs.length < 2 then '0' :: cs else cs

/-- Two-digit years become 20xx below 50 and 19xx otherwise. -/
def twoDigitYearFix (ys : List Char) : List Char :=
  if ys.length == 2 then
    (if natOfDigits ys < 50 then '2' :: '0' :: ys else '1' :: '9' :: ys)
  else ys

/-- Decode one `dateString`: slash dates split day-first into an ISO
string (with year normalization and zero padding) when day and month have
at most two digits, year-first otherwise; everything else goes to
`jsNewDate` directly. -/
def parseDateCandidate (cand : List Char) : Option CalDate :=
  let ds := trimCs cand
  if ds.contains '/' then
    match splitCh '/' ds with
    | [dd, mm, yy] =>
      let year := twoDigitYearFix yy
      if decide (dd.length ≤ 2) && decide (mm.length ≤ 2) then
        jsNewDate (year ++ '-' :: (padTo2 mm ++ '-' :: padTo2 dd))
      else jsNewDate (ds.map (fun c => if c == '/' then '-' else c))
    | _ => jsNewDate ds
  else jsNewDate ds

/-- Accept a decoded date only when its year lies in `[2000, curYear+1]`. -/
def acceptDate (curYear : Nat) (cand : List Char) : Option CalDate :=
  match parseDateCandidate cand with
  | some d => if 2000 ≤ d.year ∧ d.year ≤ curYear + 1 then some d else none
  | none => none

/-- One line: the first pattern whose candidate decodes and validates. -/
def lineDate (curYear : Nat) (l : List Char) : Option CalDate :=
  (dateCands l).findSome? (fun c =>
    match c with
    | some s => acceptDate curYear s
    | none => none)

/-- Document order: the first line with an accepted date wins. -/
def extractDate (curYear : Nat) : List (List Char) → Option CalDate
  | [] => none
  | l :: rest =>
    match lineDate curYear l with
    | some d => some d
    | none => extractDate curYear rest

/-! ## Total amount extraction

Source: `parseReceiptText`, total section — a reversed copy of the lines
is scanned (so the document is walked from its last line backward), label
patterns first, then the standalone two-decimal fallback, stopping at the
first truthy value. -/

/-- `\d+\.?\d*` — the amount capture of the label patterns. -/
def numCapM : M := mSeq digitsM (mSeq (mOpt (mLit '.')) (mStarCls isDigitC))

/-- `KW[:\s]*` optionally followed by `\$?`. -/
def labelPreM (kw : String) (dollar : Bool) : M :=
  let base := mSeq (mStrCI kw) (mStarCls (fun c => c == ':' || isWsC c))
  if dollar then mSeq base (mOpt (mLit '$')) else base

/-- Capture of one label pattern on a line. -/
def labelCap (kw : String) (dollar : Bool) (l : List Char) : Option (List Char) :=
  mSearchCap (labelPreM kw dollar) numCapM mEps l

/-- The four `totalPatterns` in order (`TOTAL`, `AMOUNT`, `SUM` with an
optional currency mark, then `TOTAL` without); the first match is parsed
with `parseFloat`. -/
def labelTotal (l : List Char) : Option Dec :=
  ([labelCap "TOTAL" true l, labelCap "AMOUNT" true l, labelCap "SUM" true l,
    labelCap "TOTAL" false l].findSome? id).map parseFloatD

/-- `(\d+\.\d{2})` — the standalone two-decimal number. -/
def twoDecM : M := mSeq digitsM (mSeq (mLit '.') (mRepCls isDigitC 2 2))

/-- Capture of `/\$?(\d+\.\d{2})/` on a line. -/
def standaloneCap (l : List Char) : Option (List Char) :=
  mSearchCap (mOpt (mLit '$')) twoDecM mEps l

/-- JS truthiness of the `totalAmount`/`price` variables (0 is falsy). -/
def qOptTruthy : Option Dec → Bool
  | some v => !v.isZero
  | none => false

/-- The backward scan: on each line the label patterns may (re)assign the
amount; if the amount is still falsy, a standalone two-decimal number in
(0, 100000) is taken; a truthy amount stops the scan. -/
def totalGo : List (List Char) → Option Dec → Option Dec
  | [], t => t
  | l :: rest, t =>
    let t1 :=
      match labelTotal l with
      | some v => some v
      | none => t
    let t2 :=
      if qOptTruthy t1 then t1
      else
        match standaloneCap l with
        | some c =>
          let a := parseFloatD c
          if Dec.blt ⟨0, 0⟩ a && Dec.blt a ⟨100000, 0⟩ then some a else t1
        | none => t1
    if qOptTruthy t2 then t2 else totalGo rest t2

/-- `[...lines].reverse()` then the scan. -/
def extractTotal (lines : List (List Char)) : Option Dec := totalGo lines.reverse none

/-! ## Line item extraction

Source: `parseReceiptText`, items section — header row detection, the
terminator and skip filters, the three parsing strategies, name cleanup,
final validation and the keep condition; plus the no-header fallback. -/

/-- An output line item: name and optional quantity (the shape of
`ExtractedData.items` entries). -/
structure ReceiptItem where
  name : String
  quantity : Option Nat
deriving DecidableEq

/-- JS truthiness of the `quantity` variable (0 is falsy). -/
def natOptTruthy : Option Nat → Bool
  | some n => n != 0
  | none => false

/-- Case-insensitive tokens joined by `\s+`. -/
def tokSeqWS : List String → M
  | [] => mEps
  | [t] => mStrCI t
  | t :: rest => mSeq (mStrCI t) (mSeq ws1M (tokSeqWS rest))

/-- Case-insensitive tokens joined by `.*`. -/
def tokSeqAny : List String → M
  | [] => mEps
  | [t] => mStrCI t
  | t :: rest => mSeq (mStrCI t) (mSeq dotStarM (tokSeqAny rest))

/-- The twelve `headerPatterns` (Description/Desc, Qty and the "Oty"
misread, Price, optional Amount; tight `\s+` layouts and loose `.*`
layouts). -/
def headerTest (l : List Char) : Bool :=
  [tokSeqWS ["description", "qty", "price", "amount"],
   tokSeqWS ["description", "oty", "price", "amount"],
   tokSeqWS ["description", "qty", "price"],
   tokSeqWS ["description", "oty", "price"],
   tokSeqWS ["desc", "qty", "price", "amount"],
   tokSeqWS ["desc", "oty", "price", "amount"],
   tokSeqWS ["desc", "qty", "price"],
   tokSeqWS ["desc", "oty", "price"],
   tokSeqAny ["description", "qty", "price", "amount"],
   tokSeqAny ["description", "oty", "price", "amount"],
   tokSeqAny ["description", "qty", "price"],
   tokSeqAny ["description", "oty", "price"]].any (fun m => mSearch m l)

/-- Lines after the first header line, when a header is found. -/
def findHeaderTail : List (List Char) → Option (List (List Char))
  | [] => none
  | l :: ls => if headerTest l then some ls else findHeaderTail ls

/-- `/^(TOTAL|SUBTOTAL|TAX|GRAND\s+TOTAL|SUM|CASH|ITEM#)/i`. -/
def termStarts (l : List Char) : Bool :=
  [mStrCI "TOTAL", mStrCI "SUBTOTAL", mStrCI "TAX", wordPairM "GRAND" "TOTAL",
   mStrCI "SUM", mStrCI "CASH", mStrCI "ITEM#"].any (fun m => mStartTest m l)

/-- `/^\s*[-=_]+\s*$/` — a separator line. -/
def sepLineTest (l : List Char) : Bool :=
  mStartTest (mSeq wsM (mSeq (mPlusCls (fun c => c == '-' || c == '=' || c == '_'))
    (mSeq wsM mEnd))) l

/-- `/SUBTOTAL|TXBL|TAX\d+|CASH|ITEM#/i`. -/
def sumKwTest (l : List Char) : Bool :=
  hasSubCI l "subtotal" || hasSubCI l "txbl" ||
  mSearch (mSeq (mStrCI "TAX") (mCls isDigitC)) l ||
  hasSubCI l "cash" || hasSubCI l "item#"

/-- `/^\w+\s+\d/` — a line that starts like an item row. -/
def wordWsDigitTest (l : List Char) : Bool :=
  mStartTest (mSeq (mPlusCls isWordC) (mSeq ws1M (mCls isDigitC))) l

/-- The item-loop terminator: summary prefixes, separator lines, footer
phrases, or a summary keyword on a line that does not start like an item. -/
def terminatorTest (l : List Char) : Bool :=
  termStarts l || sepLineTest l || mSearch (wordPairM "powered" "by") l ||
  mSearch (wordPairM "thank" "you") l || mSearch (wordPairM "visit" "us") l ||
  (sumKwTest l && !wordWsDigitTest l)

/-- `/h\.no|h\.\s*no|address|street|road|avenue|subcity|woreda|kebele/i`. -/
def addrTest (l : List Char) : Bool :=
  hasSubCI l "h.no" || mSearch (mSeq (mStrCI "h.") (mSeq wsM (mStrCI "no"))) l ||
  anySubCI l ["address", "street", "road", "avenue", "subcity", "woreda", "kebele"]

/-- `/\d+\/\d+.*[km]|city\s+mall|megenagna/i`. -/
def addr2Test (l : List Char) : Bool :=
  mSearch (mSeq digitsM (mSeq (mLit '/') (mSeq digitsM (mSeq dotStarM
    (mCls (fun c => c.toLower == 'k' || c.toLower == 'm')))))) l ||
  mSearch (wordPairM "city" "mall") l || hasSubCI l "megenagna"

/-- `/^tel|^phone|^\d{9,}/` on the lower-cased line. -/
def telLeadTest (l : List Char) : Bool :=
  mStartTest (mStrCI "tel") l || mStartTest (mStrCI "phone") l ||
  mStartTest (mRepCls isDigitC 9 9) l

/-- `/tel\s*:?\s*\d+/i`. -/
def telNumTest (l : List Char) : Bool :=
  mSearch (mSeq (mStrCI "tel") (mSeq wsM (mSeq (mOpt (mLit ':')) (mSeq wsM digitsM)))) l

/-- `/^tin|tin\s*:?\s*\d+/i`. -/
def tinLineTest (l : List Char) : Bool :=
  mStartTest (mStrCI "tin") l ||
  mSearch (mSeq (mStrCI "tin") (mSeq wsM (mSeq (mOpt (mLit ':')) (mSeq wsM digitsM)))) l

/-- `/^date\s*:?\s*\d|^\d{1,2}[\/\-]\d{1,2}[\/\-]\d{2,4}/`. -/
def dateLineTest (l : List Char) : Bool :=
  mStartTest (mSeq (mStrCI "date") (mSeq wsM (mSeq (mOpt (mLit ':'))
    (mSeq wsM (mCls isDigitC))))) l || dateLeadTest l

/-- `/^ref\s*:|^operator\s*:|^waiter\s*:|^table\s*:/i`. -/
def refOpTest (l : List Char) : Bool :=
  ["ref", "operator", "waiter", "table"].any (fun kw =>
    mStartTest (mSeq (mStrCI kw) (mSeq wsM (mLit ':'))) l)

/-- `/ref:\s*[a-z]+\-\d+/i`. -/
def refCodeTest (l : List Char) : Bool :=
  mSearch (mSeq (mStrCI "ref:") (mSeq wsM (mSeq (mPlusCls Char.isAlpha)
    (mSeq (mLit '-') digitsM)))) l

/-- `/^fs\s*no|^erca|^cash\s+invoice/i`. -/
def fsNoLeadTest (l : List Char) : Bool :=
  mStartTest (mSeq (mStrCI "fs") (mSeq wsM (mStrCI "no"))) l ||
  mStartTest (mStrCI "erca") l || mStartTest (wordPairM "cash" "invoice") l

/-- `/^[=\-_\s]+$/` — nothing but separators and whitespace. -/
def sepCharsOnly (l : List Char) : Bool :=
  !l.isEmpty && l.all (fun c => c == '=' || c == '-' || c == '_' || isWsC c)

/-- `/^[=\-_\s]{3,}$/`. -/
def sepCharsOnly3 (l : List Char) : Bool := decide (3 ≤ l.length) && sepCharsOnly l

/-- The aggressive non-item filter of the header loop (addresses, phone and
TIN lines, dates, reference/operator lines, FS/ERCA markers, separators). -/
def headerSkipTest (l : List Char) : Bool :=
  addrTest l || addr2Test l || telLeadTest l || telNumTest l || tinLineTest l ||
  dateLineTest l || refOpTest l || refCodeTest l || fsNoLeadTest l ||
  sepCharsOnly l || sepCharsOnly3 l

/-- `(\d+\.\d{2}|\d+\.\d+|\d+)` — the strategy-1 price alternation. -/
def priceAltM : M :=
  mAlt (mSeq digitsM (mSeq (mLit '.') (mRepCls isDigitC 2 2)))
    (mAlt (mSeq digitsM (mSeq (mLit '.') digitsM)) digitsM)

/-- The three captures of `/^(.+?)\s+(\d{1,3})\s+(\d+\.\d{2}|\d+\.\d+|\d+)/`
in engine order: the lazy name grows from one character, quantity and
price quantifiers are greedy. -/
def strat1Cap (cs : List Char) : Option (List Char × List Char × List Char) :=
  (List.range cs.length).findSome? (fun j =>
    let nm := cs.take (j + 1)
    let r0 := cs.drop (j + 1)
    (ws1M r0).findSome? (fun r1 =>
      (mRepCls isDigitC 1 3 r1).findSome? (fun r2 =>
        let qd := r1.take (r1.length - r2.length)
        (ws1M r2).findSome? (fun r3 =>
          ((priceAltM r3).head?).map (fun r4 => (nm, qd, r3.take (r3.length - r4.length)))))))

/-- Strategy 1: regex parse, then the joint validation of name length,
quantity in `[1,999]` and price in `(0,1000000)`; on failure nothing is
assigned. -/
def strat1 (l : List Char) : Option (List Char × Nat × Dec) :=
  match strat1Cap l with
  | some (nm, qd, pd) =>
    let extractedName := trimCs nm
    let extractedQty := natOfDigits qd
    let extractedPrice := parseFloatD pd
    if decide (3 ≤ extractedName.length) && decide (1 ≤ extractedQty) &&
        decide (extractedQty ≤ 999) && Dec.blt ⟨0, 0⟩ extractedPrice &&
        Dec.blt extractedPrice ⟨1000000, 0⟩ then
      some (extractedName, extractedQty, extractedPrice)
    else none
  | none => none

/-- `line.split(/\s{2,}|\t+/)`: a maximal whitespace run of length at
least two, or a tab, separates columns; a single non-tab whitespace stays
inside its column. -/
def colsGo : List Char → Bool → List Char → List (List Char)
  | [], _, cur => [cur.reverse]
  | c :: rest, prevSep, cur =>
    if isWsC c && (prevSep || c == '\t' ||
        (match rest with | d :: _ => isWsC d | [] => false)) then
      if prevSep then colsGo rest true cur
      else cur.reverse :: colsGo rest true []
    else colsGo rest false (c :: cur)

/-- Split into columns and drop blank ones (`filter(p => p.trim().length > 0)`). -/
def splitCols (l : List Char) : List (List Char) :=
  (colsGo l false []).filter (fun p => !(trimCs p).isEmpty)

/-- `(\d+\.\d{2}|\d+\.\d+)` — a decimal-looking price. -/
def priceDecM : M :=
  mAlt (mSeq digitsM (mSeq (mLit '.') (mRepCls isDigitC 2 2)))
    (mSeq digitsM (mSeq (mLit '.') digitsM))

/-- Leftmost decimal capture inside one column token. -/
def tokenPriceCap (tok : List Char) : Option (List Char) :=
  mSearchCap mEps priceDecM mEps tok

/-- `/^(\d{1,3})$/` on a column token. -/
def qtyTokVal (tok : List Char) : Option Nat :=
  if decide (1 ≤ tok.length) && decide (tok.length ≤ 3) && tok.all isDigitC then
    some (natOfDigits tok)
  else none

/-- Strategy 2 price scan: right to left over columns 1…end, the first
decimal in `(0, 1000000)` wins (an out-of-range decimal keeps scanning). -/
def s2PriceScan (parts : List (List Char)) : Option (Nat × Dec) :=
  (((List.range parts.length).drop 1).reverse).findSome? (fun i =>
    match tokenPriceCap (parts.getD i []) with
    | some c =>
      let v := parseFloatD c
      if Dec.blt ⟨0, 0⟩ v && Dec.blt v ⟨1000000, 0⟩ then some (i, v) else none
    | none => none)

/-- Strategy 2, quantity step 1: the column immediately before the price
column, when it is a bare 1–3 digit integer in `[1, 999]`. -/
def s2QtyNear (parts : List (List Char)) (priceIdx : Option Nat) (q0 : Option Nat) :
    Option Nat :=
  match priceIdx with
  | some pi =>
    if decide (0 < pi) && !natOptTruthy q0 then
      match qtyTokVal (parts.getD (pi - 1) []) with
      | some qv => if decide (1 ≤ qv) && decide (qv ≤ 999) then some qv else q0
      | none => q0
    else q0
  | none => q0

/-- Strategy 2, quantity step 2: scan the earlier columns right to left
for an integer in `[1, 999]` whose value differs from the price. -/
def s2QtyScan (parts : List (List Char)) (priceIdx : Option Nat) (p1 : Option Dec)
    (q1 : Option Nat) : Option Nat :=
  if !natOptTruthy q1 &&
      (match priceIdx with | some pi => decide (1 < pi) | none => false) then
    match priceIdx with
    | some pi =>
      match (((List.range pi).drop 1).reverse).findSome? (fun i =>
        match qtyTokVal (parts.getD i []) with
        | some qv =>
          if decide (1 ≤ qv) && decide (qv ≤ 999) &&
              (!qOptTruthy p1 || !Dec.beqv (Dec.ofNat qv) (p1.getD ⟨0, 0⟩)) then some qv
          else none
        | none => none) with
      | some qv => some qv
      | none => q1
    | none => q1
  else q1

/-- Strategy 2, name step: everything before the quantity column (or
before the price column, or the first column). -/
def s2Name (parts : List (List Char)) (priceIdx : Option Nat) (q2 : Option Nat)
    (nm0 : List Char) : List Char :=
  if decide (nm0.length < 3) then
    let qtyCol : Option Nat :=
      if natOptTruthy q2 &&
          (match priceIdx with | some pi => decide (0 < pi) | none => false) then
        match priceIdx with
        | some pi =>
          ((List.range pi).drop 1).findSome? (fun i =>
            match qtyTokVal (parts.getD i []) with
            | some qv => if qv == q2.getD 0 then some i else none
            | none => none)
        | none => none
      else none
    match qtyCol with
    | some qc => trimCs (joinSp (parts.take qc))
    | none =>
      match priceIdx with
      | some pi => if decide (0 < pi) then trimCs (joinSp (parts.take pi))
                   else trimCs (parts.getD 0 [])
      | none => trimCs (parts.getD 0 [])
  else nm0

/-- Strategy 2: split into columns, locate the price column, the quantity
column right before it (or scan further left, avoiding the value equal to
the price), and join the leading columns into the name. -/
def strat2 (l : List Char) (nm0 : List Char) (q0 : Option Nat) (p0 : Option Dec) :
    List Char × Option Nat × Option Dec :=
  let parts := splitCols l
  if 2 ≤ parts.length then
    let pr := s2PriceScan parts
    let priceIdx : Option Nat := pr.map Prod.fst
    let p1 :=
      match pr with
      | some (_, v) => if qOptTruthy p0 then p0 else some v
      | none => p0
    let q2 := s2QtyScan parts priceIdx p1 (s2QtyNear parts priceIdx q0)
    (s2Name parts priceIdx q2 nm0, q2, p1)
  else (nm0, q0, p0)

/-- Leftmost `/\b(\d{1,3})\b/` with its match index: a digit run of at
most three digits flanked by non-word characters or the string edges. -/
def qtyTok3Search (cs : List Char) : Option (Nat × List Char) :=
  (List.range cs.length).findSome? (fun i =>
    let leftOk := i == 0 || !isWordC (cs.getD (i - 1) ' ')
    if leftOk && isDigitC (cs.getD i ' ') then
      let run := (cs.drop i).takeWhile isDigitC
      let mx := min 3 run.length
      ((List.range mx).map (fun t => mx - t)).findSome? (fun k =>
        if i + k == cs.length || !isWordC (cs.getD (i + k) ' ') then some (i, run.take k)
        else none)
    else none)

/-- Leftmost decimal price with its match index. -/
def priceIdxSearch (cs : List Char) : Option (Nat × List Char) :=
  mSearchCapIdx mEps priceDecM mEps cs

/-- Decimal digits of a non-negative `Dec` the way JS prints the number
(integer part, then the fraction with trailing zeros trimmed). -/
def decToJsStr (p : Dec) : List Char :=
  let n := p.num.toNat
  let base := (10 : Nat) ^ p.exp
  let ip := n / base
  let fr := n % base
  if fr == 0 then natDigits ip
  else
    let frd := natDigits fr
    let padded := List.replicate (p.exp - frd.length) '0' ++ frd
    natDigits ip ++ '.' :: (padded.reverse.dropWhile (fun c => c == '0')).reverse

/-- `price.toFixed(2)` for a non-negative `Dec` (round half up). -/
def decToFixed2 (p : Dec) : List Char :=
  let n := p.num.toNat
  let base := (10 : Nat) ^ p.exp
  let r := (n * 200 + base) / (2 * base)
  let frd := natDigits (r % 100)
  natDigits (r / 100) ++ '.' :: (if frd.length < 2 then '0' :: frd else frd)

/-- Does `pat` (where `.` matches any character, as in the dynamically
built RegExp) match a prefix of `cs`? -/
def patMatchAt : List Char → List Char → Bool
  | [], _ => true
  | _ :: _, [] => false
  | p :: ps, c :: rest => (p == '.' || p == c) && patMatchAt ps rest

/-- Remove the first `\b pat \b` occurrence (no `g` flag). -/
def removeFirstPat (pat cs : List Char) : List Char :=
  match (List.range (cs.length + 1)).findSome? (fun i =>
    let leftOk := i == 0 || !isWordC (cs.getD (i - 1) ' ')
    let ri := i + pat.length
    if leftOk && patMatchAt pat (cs.drop i) &&
        (ri == cs.length || !isWordC (cs.getD ri ' ')) then some i
    else none) with
  | some i => cs.take i ++ cs.drop (i + pat.length)
  | none => cs

/-- `replace(/[+\-%$]/g, '')`. -/
def stripPlusEtc (cs : List Char) : List Char :=
  cs.filter (fun c => !(c == '+' || c == '-' || c == '%' || c == '$'))

/-- `replace(/\s{2,}/g, ' ')`: whitespace runs of two or more collapse to
one space; a single whitespace character stays as it is. -/
def collapseWs : List Char → Bool → List Char
  | [], _ => []
  | c :: rest, inRun =>
    if isWsC c then
      if inRun then collapseWs rest true
      else if (match rest with | d :: _ => isWsC d | [] => false) then
        ' ' :: collapseWs rest true
      else c :: collapseWs rest false
    else c :: collapseWs rest false

/-- Strategy 3 price: the leftmost decimal in the line when the price is
still missing, validated against `(0, 1000000)`. -/
def s3Price (pm : Option (Nat × List Char)) (p0 : Option Dec) : Option Dec :=
  match pm with
  | some (_, c) =>
    if !qOptTruthy p0 then
      if Dec.blt ⟨0, 0⟩ (parseFloatD c) && Dec.blt (parseFloatD c) ⟨1000000, 0⟩ then
        some (parseFloatD c)
      else p0
    else p0
  | none => p0

/-- Strategy 3 quantity: the bare 1–3 digit token, when in `[1, 999]`,
different from the price and positioned before it (`qtyMatch.index || 0`
against `priceMatch?.index || line.length`). -/
def s3Qty (l : List Char) (pm : Option (Nat × List Char)) (p1 : Option Dec)
    (qm : Option (Nat × List Char)) (q0 : Option Nat) : Option Nat :=
  match qm with
  | some (qi, qc) =>
    if !natOptTruthy q0 then
      if decide (1 ≤ natOfDigits qc) && decide (natOfDigits qc ≤ 999) &&
          (!qOptTruthy p1 || !Dec.beqv (Dec.ofNat (natOfDigits qc)) (p1.getD ⟨0, 0⟩)) then
        if decide (qi < (match pm with
            | some (pi, _) => if pi == 0 then l.length else pi
            | none => l.length)) then
          some (natOfDigits qc)
        else q0
      else q0
    else q0
  | none => q0

/-- Strategy 3 name: delete the matched quantity and price substrings and
the symbol characters, then collapse whitespace. -/
def s3Name (l : List Char) (q1 : Option Nat) (p1 : Option Dec) (nm0 : List Char) :
    List Char :=
  if decide (nm0.length < 3) then
    let c1 :=
      match q1 with
      | some qv => if qv != 0 then removeFirstPat (natDigits qv) l else l
      | none => l
    let c2 :=
      match p1 with
      | some pv =>
        if !pv.isZero then
          removeFirstPat (decToJsStr pv) (removeFirstPat (decToFixed2 pv) c1)
        else c1
      | none => c1
    trimCs (collapseWs (trimCs (stripPlusEtc c2)) false)
  else nm0

/-- Strategy 3: bare `\b\d{1,3}\b` quantity and decimal price anywhere in
the line (quantity must sit before the price and differ from it), then a
name obtained by deleting the matched numbers and symbol characters. -/
def strat3 (l : List Char) (nm0 : List Char) (q0 : Option Nat) (p0 : Option Dec) :
    List Char × Option Nat × Option Dec :=
  let p1 := s3Price (priceIdxSearch l) p0
  let q1 := s3Qty l (priceIdxSearch l) p1 (qtyTok3Search l) q0
  (s3Name l q1 p1 nm0, q1, p1)

/-- The `(itemName, quantity, price)` variables after strategy 1 (all set
jointly, or all still unset). -/
def strat1State (l : List Char) : List Char × Option Nat × Option Dec :=
  match strat1 l with
  | some (n, q, p) => (n, some q, some p)
  | none => ([], none, none)

/-- Strategy 2 runs when quantity or price is missing. -/
def strat2State (l : List Char) (st : List Char × Option Nat × Option Dec) :
    List Char × Option Nat × Option Dec :=
  if !natOptTruthy st.2.1 || !qOptTruthy st.2.2 then strat2 l st.1 st.2.1 st.2.2 else st

/-- Strategy 3 runs when quantity, price or a usable name is missing. -/
def strat3State (l : List Char) (st : List Char × Option Nat × Option Dec) :
    List Char × Option Nat × Option Dec :=
  if !natOptTruthy st.2.1 || !qOptTruthy st.2.2 || st.1.isEmpty ||
      decide (st.1.length < 3) then
    strat3 l st.1 st.2.1 st.2.2
  else st

/-- The ordered strategy chain. -/
def stratChain (l : List Char) : List Char × Option Nat × Option Dec :=
  strat3State l (strat2State l (strat1State l))

/-- `replace(/\s+\d+\.?\d*\s*$/, '')` — drop a trailing number. -/
def stripTrailNumOnce (n : List Char) : List Char :=
  match (List.range (n.length + 1)).findSome? (fun i =>
    if ((mSeq ws1M (mSeq digitsM (mSeq (mOpt (mLit '.'))
        (mSeq (mStarCls isDigitC) (mSeq wsM mEnd))))) (n.drop i)).isEmpty then none
    else some i) with
  | some i => n.take i
  | none => n

/-- `replace(/[+\-%$|]+$/, '')` — drop trailing symbol characters. -/
def stripTrailSyms (n : List Char) : List Char :=
  (n.reverse.dropWhile (fun c => c == '+' || c == '-' || c == '%' || c == '$' || c == '|')).reverse

/-- The `[.,;:\s]` class of the edge-punctuation cleanup. -/
def edgePunctC (c : Char) : Bool :=
  c == '.' || c == ',' || c == ';' || c == ':' || isWsC c

/-- `replace(/^[.,;:\s]+|[.,;:\s]+$/g, '')`. -/
def stripEdgePunct (n : List Char) : List Char :=
  ((n.dropWhile edgePunctC).reverse.dropWhile edgePunctC).reverse

/-- The item-name cleanup applied when a name was produced (each step is
followed by `trim()` in the source). -/
def cleanupName (n : List Char) : List Char :=
  trimCs (stripEdgePunct (trimCs (stripTrailSyms (trimCs (stripTrailNumOnce n)))))

/-- Final quantity validation: a truthy quantity outside `[1,999]` becomes
absent. -/
def finalQty : Option Nat → Option Nat
  | some n => if n != 0 && (decide (n < 1) || decide (999 < n)) then none else some n
  | none => none

/-- Final price validation: a truthy price outside `(0,1000000)` becomes
absent. -/
def finalPrice : Option Dec → Option Dec
  | some v =>
    if !v.isZero && (!Dec.blt ⟨0, 0⟩ v || !Dec.blt v ⟨1000000, 0⟩) then none else some v
  | none => none

/-- `/description|qty|oty|price|total|amount|sum|tax|subtotal/i` on the
lower-cased item name. -/
def hdrMetaName1 (nl : List Char) : Bool :=
  anySubCI nl ["description", "qty", "oty", "price", "total", "amount", "sum", "tax", "subtotal"]

/-- `/tin|tel|phone|date|ref|operator|waiter|table|fs\s*no|erca/i`. -/
def metaVocabTest (nl : List Char) : Bool :=
  anySubCI nl ["tin", "tel", "phone", "date", "ref", "operator", "waiter", "table", "erca"] ||
  mSearch (mSeq (mStrCI "fs") (mSeq wsM (mStrCI "no"))) nl

/-- `/h\.no|address|street|subcity|woreda/i`. -/
def addrVocabTest (nl : List Char) : Bool :=
  anySubCI nl ["h.no", "address", "street", "subcity", "woreda"]

/-- `itemName.replace(/[^\w\s&'.-]/g, ' ').trim()` — the final name. -/
def cleanItemNameFinal (n : List Char) : List Char :=
  trimCs (n.map (fun c => if keepNameChar c then c else ' '))

/-- The union of the metadata-vocabulary checks on the lower-cased name
(`cleanItemName` in the source). -/
def hdrMetaAll (cn : List Char) : Bool :=
  hdrMetaName1 cn || footerTest cn || metaVocabTest cn || addrVocabTest cn ||
  allDigitsTest cn || sepCharsOnly cn

/-- The keep condition of the header path: name length in `[3,100)`, a
truthy positive price, and the name is not metadata vocabulary. -/
def headerKeep (nm : List Char) (q : Option Nat) (p : Option Dec) :
    Option (ReceiptItem × Dec) :=
  if decide (3 ≤ nm.length) && decide (nm.length < 100) && qOptTruthy p &&
      Dec.blt ⟨0, 0⟩ (p.getD ⟨0, 0⟩) then
    if hdrMetaAll (lowerCs nm) then none
    else some (⟨str (cleanItemNameFinal nm), q⟩, p.getD ⟨0, 0⟩)
  else none

/-- What the header item loop does with one line. -/
inductive ItemLineRes where
  | stop
  | skip
  | keep (it : ReceiptItem) (price : Dec)
deriving DecidableEq

/-- The name cleanup applies only when a name was produced
(`if (itemName)` in the source). -/
def hdrNameOf (n : List Char) : List Char := if n.isEmpty then n else cleanupName n

/-- One line of the header loop: terminators break, short and filtered
lines are skipped, otherwise the strategies, the name cleanup, the final
validations and the keep condition run. -/
def headerLineRes (l : List Char) : ItemLineRes :=
  if terminatorTest l then .stop
  else if decide ((trimCs l).length < 2) then .skip
  else if headerSkipTest l then .skip
  else
    match headerKeep (hdrNameOf (stratChain l).1) (finalQty (stratChain l).2.1)
        (finalPrice (stratChain l).2.2) with
    | some (it, pv) => .keep it pv
    | none => .skip

/-- The header item loop over the lines after the header row, keeping the
internal price that justified each kept item. -/
def itemsAfterHeader : List (List Char) → List (ReceiptItem × Dec)
  | [] => []
  | l :: ls =>
    match headerLineRes l with
    | .stop => []
    | .skip => itemsAfterHeader ls
    | .keep it p => (it, p) :: itemsAfterHeader ls

/-- `\s*x?\s*` between quantity and price in the fallback pattern. -/
def xPartM : M := mSeq wsM (mSeq (mOpt (mLit 'x')) wsM)

/-- The end of the fallback pattern `(?:\$?(\d+\.?\d*))?$`: the price
group is tried first (an optional dollar, then digits with an optional
fraction consuming the rest of the line) and otherwise the rest must be
empty; returns the capture (`[]` for an absent group). -/
def fbPriceEnd (r : List Char) : Option (List Char) :=
  let core := fun (t : List Char) =>
    let d1 := t.takeWhile isDigitC
    if d1.isEmpty then none
    else
      match t.drop d1.length with
      | [] => some t
      | '.' :: r2 => if r2.all isDigitC then some t else none
      | _ => none
  match (match r with
         | '$' :: r' => core r'
         | _ => none) with
  | some c => some c
  | none =>
    match core r with
    | some c => some c
    | none => if r.isEmpty then some [] else none

/-- The captures of `/^(.+?)(?:\s+(\d+)\s*x?\s*)?(?:\$?(\d+\.?\d*))?$/` in
engine order (lazy name, quantity group preferred and greedy, price group
preferred). -/
def fbCap (cs : List Char) : Option (List Char × List Char × List Char) :=
  (List.range cs.length).findSome? (fun j =>
    let nm := cs.take (j + 1)
    let r0 := cs.drop (j + 1)
    let withQty :=
      (ws1M r0).findSome? (fun r1 =>
        (digitsM r1).findSome? (fun r2 =>
          let qd := r1.take (r1.length - r2.length)
          (xPartM r2).findSome? (fun r3 =>
            (fbPriceEnd r3).map (fun pc => (nm, qd, pc)))))
    match withQty with
    | some res => some res
    | none => (fbPriceEnd r0).map (fun pc => (nm, ([] : List Char), pc)))

/-- `/TOTAL|AMOUNT|SUM|DATE|STORE|TAX|SUB|DESCRIPTION|QTY|OTY|PRICE/i`. -/
def fbMetaKw (l : List Char) : Bool :=
  anySubCI l ["total", "amount", "sum", "date", "store", "tax", "sub",
              "description", "qty", "oty", "price"]

/-- The fallback loop's skip filter. -/
def fbSkipTest (l : List Char) : Bool :=
  fbMetaKw l || footerTest l || metaVocabTest (lowerCs l) ||
  (addrVocabTest (lowerCs l) || mSearch (wordPairM "city" "mall") l) ||
  dateLineTest l || sepCharsOnly l ||
  decide (l.length < 3) || decide (100 < l.length)

/-- The fallback keep filter on the lower-cased name. -/
def fbMetaName (nl : List Char) : Bool :=
  footerTest nl || metaVocabTest nl || addrVocabTest nl || allDigitsTest nl

/-- The fallback keep condition: name in `[3,80)`, truthy positive price,
non-metadata name. -/
def fbKeep (nm : List Char) (q : Option Nat) (p : Option Dec) :
    Option (ReceiptItem × Dec) :=
  if decide (3 ≤ nm.length) && decide (nm.length < 80) && qOptTruthy p &&
      Dec.blt ⟨0, 0⟩ (p.getD ⟨0, 0⟩) && !fbMetaName (lowerCs nm) then
    some (⟨str nm, q⟩, p.getD ⟨0, 0⟩)
  else none

/-- One line of the no-header fallback: skip filters, the single tolerant
pattern, and the keep condition. -/
def fallbackLineRes (l : List Char) : Option (ReceiptItem × Dec) :=
  if fbSkipTest l then none
  else
    match fbCap l with
    | some (nmr, qd, pd) =>
      fbKeep (trimCs nmr) (if qd.isEmpty then none else some (natOfDigits qd))
        (if pd.isEmpty then none else some (parseFloatD pd))
    | none => none

/-- The fallback loop (it never breaks, only skips). -/
def fallbackItems (lines : List (List Char)) : List (ReceiptItem × Dec) :=
  lines.filterMap fallbackLineRes

/-- Item extraction: the header loop below the first header row, the
fallback otherwise; each kept item is paired with the internal price that
justified keeping it. -/
def extractItems (lines : List (List Char)) : List (ReceiptItem × Dec) :=
  match findHeaderTail lines with
  | some tail => itemsAfterHeader tail
  | none => fallbackItems lines

/-! ## The assembled extraction engine -/

/-- The `ExtractedData` value returned by the engine: its items carry only
a name and an optional quantity. -/
structure ExtractedData where
  storeName : Option String
  purchaseDate : Option CalDate
  totalAmount : Option Dec
  items : List ReceiptItem
deriving DecidableEq

/-- `parseReceiptText` on already-split lines. -/
def parseLines (lines : List (List Char)) (words : Option (List OcrWord))
    (curYear : Nat) : ExtractedData :=
  { storeName := (extractStoreName lines words).map str
    purchaseDate := extractDate curYear lines
    totalAmount := extractTotal lines
    items := (extractItems lines).map Prod.fst }

/-- The extraction engine `parseReceiptText(text, words?)`; `curYear`
models `new Date().getFullYear()`. -/
def parseReceiptText (text : String) (words : Option (List OcrWord))
    (curYear : Nat) : ExtractedData :=
  parseLines (splitLines text) words curYear

/-! ## The recognition adapter (`OCRService` lifecycle)

The service owns at most one engine instance (`this.worker`).  Engine
instances are identified by the order of their creation: `createWorker` is
modelled as handing out `nextId` and bumping it, so a later instance never
reuses an earlier identifier.  The behaviour of `worker.recognize` is a
parameter `beh` mapping an instance and an image path to a result or a
fault. -/

/-- The adapter state: the current engine instance, if any, and the next
fresh instance identifier. -/
structure OCRServiceState where
  worker : Option Nat
  nextId : Nat
deriving DecidableEq

/-- `initialize()`: keep an existing instance, otherwise create a fresh
one (the single-flight guard makes concurrent callers share this one
attempt; its sequential effect is this state transition). -/
def serviceInit (s : OCRServiceState) : OCRServiceState :=
  if s.worker.isSome then s else { worker := some s.nextId, nextId := s.nextId + 1 }

/-- What a successful `worker.recognize` returns: text and word data. -/
structure RecognizeData where
  text : String
  words : List OcrWord

/-- `extractData(imagePath)`: initialize, recognize, parse; on a fault the
engine instance is terminated and discarded (`this.worker = null`) before
the wrapped error is thrown. -/
def extractDataCall (beh : Nat → String → Except String RecognizeData)
    (curYear : Nat) (s : OCRServiceState) (imagePath : String) :
    Except String ExtractedData × OCRServiceState :=
  let s1 := serviceInit s
  match s1.worker with
  | none => (.error "OCR worker not initialized", s1)
  | some w =>
    match beh w imagePath with
    | .ok d => (.ok (parseReceiptText d.text (some d.words) curYear), s1)
    | .error e => (.error ("OCR data extraction failed: " ++ e), { s1 with worker := none })

/-! ## The worker (`ocr.worker.ts` job processing)

The per-job control flow, with its externally observable effects recorded
as an event trace: progress updates, the file-existence verification on the
resolved path, recognition, persistence, and the cleanup deletion. -/

/-- An observable effect of processing one job. -/
inductive WorkerEv where
  | progress (n : Nat)
  | fileCheck (path : String) (ok : Bool)
  | recognized
  | persisted
  | fileDeleted (path : String)
deriving DecidableEq

/-- The job payload (`OCRJobData`). -/
structure OCRJobData where
  filePath : String
  filename : String
  imageUrl : String
  receiptId : Option String
deriving DecidableEq

/-- The worker's environment: the file system, the configured upload root,
the recognition call and the persistence outcome. -/
structure WorkerEnv where
  fsExists : String → Bool
  uploadDir : String
  recog : String → Except String ExtractedData
  persistRes : Except String Nat

/-- `path.join(uploadDir, filename)` (concatenation model). -/
def pathJoin (a b : String) : String := a ++ "/" ++ b

/-- The catch-block cleanup: delete the uploaded file, trying the literal
path and then the upload-root reconstruction. -/
def cleanupEvents (env : WorkerEnv) (jd : OCRJobData) : List WorkerEv :=
  let f := if env.fsExists jd.filePath then jd.filePath else pathJoin env.uploadDir jd.filename
  if env.fsExists f then [.fileDeleted f] else []

/-- One job: progress 10, resolve and verify the file (literal path first,
then the upload root), progress 20, recognize, progress 70, persist,
progress 100; any failure runs the cleanup and propagates the error. -/
def processJob (env : WorkerEnv) (jd : OCRJobData) : Except String Nat × List WorkerEv :=
  let t0 : List WorkerEv := [.progress 10]
  let actual :=
    if env.fsExists jd.filePath then jd.filePath else pathJoin env.uploadDir jd.filename
  if env.fsExists actual then
    let t1 := t0 ++ [.fileCheck actual true, .progress 20]
    match env.recog actual with
    | .ok _d =>
      let t2 := t1 ++ [.recognized, .progress 70]
      match env.persistRes with
      | .ok rid => (.ok rid, t2 ++ [.persisted, .progress 100])
      | .error e => (.error e, t2 ++ cleanupEvents env jd)
    | .error e => (.error e, t1 ++ cleanupEvents env jd)
  else
    (.error ("File not found: " ++ jd.filePath ++ " or " ++ actual),
     t0 ++ [.fileCheck actual false] ++ cleanupEvents env jd)

/-! ## Helper lemmas -/

theorem findSome?_imp {α β : Type} {f : α → Option β} {P : β → Prop} {l : List α} {b : β}
    (hf : ∀ a b', f a = some b' → P b') (h : l.findSome? f = some b) : P b := by
  obtain ⟨a, _, ha⟩ := List.exists_of_findSome?_eq_some h
  exact hf a b ha

theorem Dec.toQ_zero : Dec.toQ ⟨0, 0⟩ = 0 := by simp [Dec.toQ]

theorem Dec.blt_zero_left {a : Dec} (h : Dec.blt ⟨0, 0⟩ a = true) : 0 < a.toQ := by
  have := (Dec.blt_iff ⟨0, 0⟩ a).mp h
  rwa [Dec.toQ_zero] at this

theorem Dec.blt_mil_right {a : Dec} (h : Dec.blt a ⟨1000000, 0⟩ = true) :
    a.toQ < 1000000 := by
  have := (Dec.blt_iff a ⟨1000000, 0⟩).mp h
  simpa [Dec.toQ] using this

theorem Dec.blt_zero_not_isZero {a : Dec} (h : Dec.blt ⟨0, 0⟩ a = true) :
    a.isZero = false := by
  simp only [Dec.blt, decide_eq_true_eq] at h
  simp only [Dec.isZero, beq_eq_false_iff_ne, ne_eq]
  intro hz
  rw [hz] at h
  simp at h

/-- `acceptDate` only produces years within `[2000, curYear+1]`. -/
theorem acceptDate_year {y : Nat} {c : List Char} {d : CalDate}
    (h : acceptDate y c = some d) : 2000 ≤ d.year ∧ d.year ≤ y + 1 := by
  unfold acceptDate at h
  rcases hp : parseDateCandidate c with _ | d' <;> rw [hp] at h
  · exact absurd h (by simp)
  · dsimp only at h
    split at h
    · cases h
      assumption
    · exact absurd h (by simp)

/-- `lineDate` only produces years within `[2000, curYear+1]`. -/
theorem lineDate_year {y : Nat} {l : List Char} {d : CalDate}
    (h : lineDate y l = some d) : 2000 ≤ d.year ∧ d.year ≤ y + 1 := by
  unfold lineDate at h
  refine @findSome?_imp _ _ _ (fun d' => 2000 ≤ d'.year ∧ d'.year ≤ y + 1) _ _
    (fun c d' hc => ?_) h
  rcases c with _ | s
  · exact absurd hc (by simp)
  · exact acceptDate_year hc

/-- `extractDate` only produces years within `[2000, curYear+1]`. -/
theorem extractDate_year {y : Nat} {lines : List (List Char)} {d : CalDate}
    (h : extractDate y lines = some d) : 2000 ≤ d.year ∧ d.year ≤ y + 1 := by
  induction lines with
  | nil => exact absurd h (by simp [extractDate])
  | cons l rest ih =>
    unfold extractDate at h
    rcases hl : lineDate y l with _ | d'
    · rw [hl] at h
      exact ih h
    · rw [hl] at h
      cases h
      exact lineDate_year hl

/-! ## The claims -/

/-- C1: for every raw OCR text input, with or without word geometry, the
extraction engine is a total function into `ExtractedData` (the embedding
returns a value on every input, modelling that the source never throws),
and in the worst case — no non-empty line and no word geometry, so no
strategy has anything to match — every field is absent and the item list
is empty. -/
theorem claim1_extraction_total (t : String) (w : Option (List OcrWord)) (y : Nat) :
    ∃ d : ExtractedData, parseReceiptText t w y = d ∧
      ((splitLines t = [] ∧ (w = none ∨ w = some [])) →
        d = { storeName := none, purchaseDate := none, totalAmount := none, items := [] }) := by
  refine ⟨parseReceiptText t w y, rfl, ?_⟩
  rintro ⟨hl, hw⟩
  unfold parseReceiptText
  rw [hl]
  rcases hw with h | h <;> subst h <;> rfl

/-- Witness for C1 at a whitespace-only input. -/
theorem claim1_witness :
    parseReceiptText " \n \t " none 2025 =
      { storeName := none, purchaseDate := none, totalAmount := none, items := [] } := by
  obtain ⟨d, hd, hw⟩ := claim1_extraction_total " \n \t " none 2025
  rw [hd]
  exact hw ⟨by decide, Or.inl rfl⟩

/-- C3: an accepted purchase date always has a year between 2000 and
`curYear + 1`; a line none of whose candidates decodes to a valid
in-range date contributes nothing and scanning continues with the later
lines (each line itself tries all five patterns in order). -/
theorem claim3_date_year_bounds :
    (∀ (t : String) (w : Option (List OcrWord)) (y : Nat) (d : CalDate),
      (parseReceiptText t w y).purchaseDate = some d →
        2000 ≤ d.year ∧ d.year ≤ y + 1) ∧
    (∀ (y : Nat) (l : List Char) (rest : List (List Char)),
      lineDate y l = none → extractDate y (l :: rest) = extractDate y rest) := by
  constructor
  · intro t w y d h
    exact extractDate_year h
  · intro y l rest h
    show (match lineDate y l with
          | some d => some d
          | none => extractDate y rest) = extractDate y rest
    rw [h]

/-- Witness for C3 on a concrete labelled date line. -/
theorem claim3_witness :
    (parseReceiptText "DATE: 14/08/2023 16:53" none 2026).purchaseDate =
      some ⟨2023, 8, 14⟩ ∧ 2000 ≤ 2023 ∧ 2023 ≤ 2026 + 1 := by
  have h : (parseReceiptText "DATE: 14/08/2023 16:53" none 2026).purchaseDate =
      some ⟨2023, 8, 14⟩ := by decide
  have hb := claim3_date_year_bounds.1 "DATE: 14/08/2023 16:53" none 2026 ⟨2023, 8, 14⟩ h
  exact ⟨h, hb.1, hb.2⟩

/-- C4: the total is resolved scanning lines backward; a label pattern
(TOTAL/AMOUNT/SUM, optional currency mark, decimal number) with a nonzero
amount on the last line wins regardless of everything before it; a line
with no label match contributes a standalone two-decimal number in
`(0, 100000)`; and on the line `"TOTAL: $45.67"` the total resolves to
45.67. -/
theorem claim4_total_amount :
    ((parseReceiptText "TOTAL: $45.67" none 2025).totalAmount).map Dec.toQ =
      some ((4567 : ℚ) / 100) ∧
    (∀ (pre : List (List Char)) (l : List Char) (v : Dec),
      labelTotal l = some v → v.isZero = false →
      extractTotal (pre ++ [l]) = some v) ∧
    (∀ (pre : List (List Char)) (l : List Char) (c : List Char),
      labelTotal l = none → standaloneCap l = some c →
      Dec.blt ⟨0, 0⟩ (parseFloatD c) = true →
      Dec.blt (parseFloatD c) ⟨100000, 0⟩ = true →
      extractTotal (pre ++ [l]) = some (parseFloatD c)) := by
  refine ⟨?_, ?_, ?_⟩
  · have h : (parseReceiptText "TOTAL: $45.67" none 2025).totalAmount = some ⟨4567, 2⟩ := by
      decide
    rw [h]
    simp [Dec.toQ]
    norm_num
  · intro pre l v hlab hnz
    unfold extractTotal
    rw [List.reverse_append]
    simp only [List.reverse_cons, List.reverse_nil, List.nil_append, List.cons_append,
      List.singleton_append]
    unfold totalGo
    rw [hlab]
    simp [qOptTruthy, hnz]
  · intro pre l c hlab hsc h0 h1e5
    unfold extractTotal
    rw [List.reverse_append]
    simp only [List.reverse_cons, List.reverse_nil, List.nil_append, List.cons_append,
      List.singleton_append]
    unfold totalGo
    rw [hlab, hsc]
    have hz := Dec.blt_zero_not_isZero h0
    simp [qOptTruthy, h0, h1e5, hz]

/-- Witness for C4 discharging the hypotheses of both scan conjuncts. -/
theorem claim4_witness :
    extractTotal [chars "Bread 1.50", chars "TOTAL: $45.67"] = some ⟨4567, 2⟩ ∧
    extractTotal [chars "TOTAL: nothing", chars "only 12.34 here"] = some ⟨1234, 2⟩ := by
  constructor
  · exact claim4_total_amount.2.1 [chars "Bread 1.50"] (chars "TOTAL: $45.67") ⟨4567, 2⟩
      (by decide) (by decide)
  · exact claim4_total_amount.2.2 [chars "TOTAL: nothing"] (chars "only 12.34 here")
      (chars "12.34") (by decide) (by decide) (by decide) (by decide)

/-- C5: a first line carrying a TIN marker makes the immediately following
line (here 3–60 characters and free of date/total/metadata/footer shapes)
the store name, whatever lines follow; on the concrete three-line text the
store name is "ACME MARKET". -/
theorem claim5_tin_store_name :
    (∀ (rest : List (List Char)) (w : Option (List OcrWord)),
      extractStoreName (chars "TIN: 123456789" :: chars "ACME MARKET" :: rest) w =
        some (chars "ACME MARKET")) ∧
    (∀ (w : Option (List OcrWord)) (y : Nat),
      (parseReceiptText "TIN: 123456789\nACME MARKET\nTOTAL: 45.67" w y).storeName =
        some "ACME MARKET") := by
  have hstep : ∀ rest : List (List Char),
      tinStoreScan (chars "TIN: 123456789" :: chars "ACME MARKET" :: rest) =
        some (chars "ACME MARKET") := by
    intro rest
    have hc : (tinTest (chars "TIN: 123456789") &&
        tinNextOk (trimCs (chars "ACME MARKET"))) = true := by decide
    unfold tinStoreScan
    simp only [hc, if_true]
    decide
  have hmain : ∀ (rest : List (List Char)) (w : Option (List OcrWord)),
      extractStoreName (chars "TIN: 123456789" :: chars "ACME MARKET" :: rest) w =
        some (chars "ACME MARKET") := by
    intro rest w
    unfold extractStoreName
    simp only [hstep rest]
    have ht : strTruthy (some (chars "ACME MARKET")) = true := by decide
    simp only [ht, if_true]
  refine ⟨hmain, ?_⟩
  intro w y
  show (extractStoreName (splitLines "TIN: 123456789\nACME MARKET\nTOTAL: 45.67") w).map str =
    some "ACME MARKET"
  rw [show splitLines "TIN: 123456789\nACME MARKET\nTOTAL: 45.67" =
    [chars "TIN: 123456789", chars "ACME MARKET", chars "TOTAL: 45.67"] from by decide]
  rw [hmain [chars "TOTAL: 45.67"] w]
  rfl

/-- C6: a header row "Description Qty Price Amount" immediately followed
by the line "Milk 2 3.99" puts an item named "Milk" with quantity 2 into
the output, whatever lines follow; on the concrete two-line text it is the
only item. -/
theorem claim6_header_item :
    (∀ (suffix : List (List Char)) (w : Option (List OcrWord)) (y : Nat),
      (⟨"Milk", some 2⟩ : ReceiptItem) ∈
        (parseLines (chars "Description Qty Price Amount" :: chars "Milk 2 3.99" :: suffix)
          w y).items) ∧
    (parseReceiptText "Description Qty Price Amount\nMilk 2 3.99" none 2025).items =
      [⟨"Milk", some 2⟩] := by
  constructor
  · intro suffix w y
    have hH : headerTest (chars "Description Qty Price Amount") = true := by decide
    have hM : headerLineRes (chars "Milk 2 3.99") =
        .keep ⟨"Milk", some 2⟩ ⟨399, 2⟩ := by decide
    show (⟨"Milk", some 2⟩ : ReceiptItem) ∈ (extractItems _).map Prod.fst
    unfold extractItems findHeaderTail
    rw [hH]
    simp only [if_true]
    unfold itemsAfterHeader
    rw [hM]
    simp
  · decide

/-- C7: the engine is a pure function — equal `(text, words)` inputs at a
fixed clock year give equal outputs — and it decomposes into independent
per-field functions of the same immutable line list, the total scan
consuming a reversed copy of the lines while the item scan still sees
them in document order. -/
theorem claim7_determinism :
    (∀ (t₁ t₂ : String) (w₁ w₂ : Option (List OcrWord)) (y₁ y₂ : Nat),
      t₁ = t₂ → w₁ = w₂ → y₁ = y₂ →
      parseReceiptText t₁ w₁ y₁ = parseReceiptText t₂ w₂ y₂) ∧
    (∀ (lines : List (List Char)) (w : Option (List OcrWord)) (y : Nat),
      parseLines lines w y =
        { storeName := (extractStoreName lines w).map str
          purchaseDate := extractDate y lines
          totalAmount := extractTotal lines
          items := (extractItems lines).map Prod.fst }) ∧
    (∀ lines : List (List Char), extractTotal lines = totalGo lines.reverse none) :=
  ⟨fun _ _ _ _ _ _ h1 h2 h3 => by rw [h1, h2, h3], fun _ _ _ => rfl, fun _ => rfl⟩

/-- Witness for C7 at a concrete repeated call. -/
theorem claim7_witness :
    parseReceiptText "TOTAL: $45.67" none 2025 = parseReceiptText "TOTAL: $45.67" none 2025 :=
  claim7_determinism.1 "TOTAL: $45.67" "TOTAL: $45.67" none none 2025 2025 rfl rfl rfl

/-! ## Quantity and price invariants of the item strategies -/

theorem strat1_bounds {l nm : List Char} {q : Nat} {p : Dec}
    (h : strat1 l = some (nm, q, p)) :
    1 ≤ q ∧ q ≤ 999 ∧ Dec.blt ⟨0, 0⟩ p = true ∧ Dec.blt p ⟨1000000, 0⟩ = true := by
  simp only [strat1] at h
  split at h
  · split at h
    · rename_i hcond
      cases h
      simp only [Bool.and_eq_true, decide_eq_true_eq] at hcond
      exact ⟨hcond.1.1.1.2, hcond.1.1.2, hcond.1.2, hcond.2⟩
    · exact absurd h (by simp)
  · exact absurd h (by simp)

theorem s2QtyNear_q {parts : List (List Char)} {pi : Option Nat} {q0 : Option Nat}
    (h0 : ∀ k, q0 = some k → 1 ≤ k) {m : Nat}
    (hm : s2QtyNear parts pi q0 = some m) : 1 ≤ m := by
  unfold s2QtyNear at hm
  split at hm
  · split at hm
    · split at hm
      · split at hm
        · rename_i hcond
          cases hm
          simp only [Bool.and_eq_true, decide_eq_true_eq] at hcond
          exact hcond.1
        · exact h0 m hm
      · exact h0 m hm
    · exact h0 m hm
  · exact h0 m hm

theorem s2QtyScan_q {parts : List (List Char)} {pi : Option Nat} {p1 : Option Dec}
    {q1 : Option Nat} (h0 : ∀ k, q1 = some k → 1 ≤ k) {m : Nat}
    (hm : s2QtyScan parts pi p1 q1 = some m) : 1 ≤ m := by
  unfold s2QtyScan at hm
  split at hm
  · split at hm
    · split at hm
      · rename_i hfs
        cases hm
        refine @findSome?_imp _ _ _ (fun k => 1 ≤ k) _ _ (fun i b hb => ?_) hfs
        split at hb
        · split at hb
          · rename_i hcond
            cases hb
            simp only [Bool.and_eq_true, decide_eq_true_eq] at hcond
            exact hcond.1.1
          · exact absurd hb (by simp)
        · exact absurd hb (by simp)
      · exact h0 m hm
    · exact h0 m hm
  · exact h0 m hm

theorem strat2_q {l nm0 : List Char} {q0 : Option Nat} {p0 : Option Dec}
    (h0 : ∀ k, q0 = some k → 1 ≤ k) {m : Nat}
    (hm : (strat2 l nm0 q0 p0).2.1 = some m) : 1 ≤ m := by
  simp only [strat2] at hm
  split at hm
  · exact s2QtyScan_q (fun k hk => s2QtyNear_q h0 hk) hm
  · exact h0 m hm

theorem s3Qty_q {l : List Char} {pm : Option (Nat × List Char)} {p1 : Option Dec}
    {qm : Option (Nat × List Char)} {q0 : Option Nat}
    (h0 : ∀ k, q0 = some k → 1 ≤ k) {m : Nat}
    (hm : s3Qty l pm p1 qm q0 = some m) : 1 ≤ m := by
  rcases qm with _ | ⟨qi, qc⟩
  · exact h0 m (by simpa [s3Qty] using hm)
  · simp only [s3Qty] at hm
    split_ifs at hm with h1 h2 h3
    · cases hm
      simp only [Bool.and_eq_true, decide_eq_true_eq] at h2
      exact h2.1.1
    all_goals exact h0 m hm

theorem strat3_q {l nm0 : List Char} {q0 : Option Nat} {p0 : Option Dec}
    (h0 : ∀ k, q0 = some k → 1 ≤ k) {m : Nat}
    (hm : (strat3 l nm0 q0 p0).2.1 = some m) : 1 ≤ m := by
  simp only [strat3] at hm
  exact s3Qty_q h0 hm

theorem strat1State_q {l : List Char} {m : Nat}
    (hm : (strat1State l).2.1 = some m) : 1 ≤ m := by
  unfold strat1State at hm
  split at hm
  · rename_i n q p hs
    cases hm
    exact (strat1_bounds hs).1
  · exact absurd hm (by simp)

theorem stratChain_q {l : List Char} {m : Nat}
    (hm : (stratChain l).2.1 = some m) : 1 ≤ m := by
  unfold stratChain strat3State at hm
  have h2 : ∀ k, (strat2State l (strat1State l)).2.1 = some k → 1 ≤ k := by
    intro k hk
    unfold strat2State at hk
    split at hk
    · exact strat2_q (fun j hj => strat1State_q hj) hk
    · exact strat1State_q hk
  split at hm
  · exact strat3_q h2 hm
  · exact h2 m hm

theorem finalQty_val {q : Option Nat} {n : Nat} (h : finalQty q = some n) :
    q = some n := by
  unfold finalQty at h
  split at h
  · split at h
    · exact absurd h (by simp)
    · cases h
      rfl
  · exact absurd h (by simp)

theorem finalQty_bounds {q : Option Nat} {n : Nat} (h : finalQty q = some n)
    (hpos : ∀ k, q = some k → 1 ≤ k) : 1 ≤ n ∧ n ≤ 999 := by
  have hv := finalQty_val h
  have h1 : 1 ≤ n := hpos n hv
  unfold finalQty at h
  rw [hv] at h
  dsimp only at h
  split at h
  · exact absurd h (by simp)
  · rename_i hcond
    simp only [Bool.and_eq_true, Bool.or_eq_true, decide_eq_true_eq, bne_iff_ne, ne_eq,
      not_and, not_or] at hcond
    constructor
    · exact h1
    · by_cases hz : n = 0
      · omega
      · have := hcond hz
        omega

theorem finalPrice_facts {x : Option Dec} {v : Dec} (h : finalPrice x = some v) :
    v.isZero = true ∨ (Dec.blt ⟨0, 0⟩ v = true ∧ Dec.blt v ⟨1000000, 0⟩ = true) := by
  unfold finalPrice at h
  split at h
  · split at h
    · exact absurd h (by simp)
    · rename_i hcond
      cases h
      rcases Bool.eq_false_or_eq_true (Dec.isZero v) with hz | hz
      · exact Or.inl hz
      · rcases Bool.eq_false_or_eq_true (Dec.blt ⟨0, 0⟩ v) with hb0 | hb0
        · rcases Bool.eq_false_or_eq_true (Dec.blt v ⟨1000000, 0⟩) with hb1 | hb1
          · exact Or.inr ⟨hb0, hb1⟩
          · exact absurd (by rw [hz, hb0, hb1]; rfl) hcond
        · exact absurd (by rw [hz, hb0]; rfl) hcond
  · exact absurd h (by simp)

theorem headerKeep_facts {nm : List Char} {q : Option Nat} {p : Option Dec}
    {it : ReceiptItem} {pv : Dec} (h : headerKeep nm q p = some (it, pv)) :
    Dec.blt ⟨0, 0⟩ pv = true ∧ p = some pv ∧ it.quantity = q := by
  unfold headerKeep at h
  split at h
  · rename_i hcond
    split at h
    · exact absurd h (by simp)
    · cases h
      simp only [Bool.and_eq_true, decide_eq_true_eq] at hcond
      rcases p with _ | v
      · simp [qOptTruthy] at hcond
      · exact ⟨hcond.2, rfl, rfl⟩
  · exact absurd h (by simp)

theorem headerLineRes_keep {l : List Char} {it : ReceiptItem} {p : Dec}
    (h : headerLineRes l = .keep it p) :
    Dec.blt ⟨0, 0⟩ p = true ∧ Dec.blt p ⟨1000000, 0⟩ = true ∧
    (∀ q, it.quantity = some q → 1 ≤ q ∧ q ≤ 999) := by
  unfold headerLineRes at h
  split at h
  · exact absurd h (by simp)
  · split at h
    · exact absurd h (by simp)
    · split at h
      · exact absurd h (by simp)
      · split at h
        · rename_i it' pv hk
          cases h
          obtain ⟨hb0, hps, hqq⟩ := headerKeep_facts hk
          have hlt : Dec.blt p ⟨1000000, 0⟩ = true := by
            rcases finalPrice_facts hps with hz | ⟨_, hb1⟩
            · rw [Dec.blt_zero_not_isZero hb0] at hz
              exact absurd hz (by simp)
            · exact hb1
          refine ⟨hb0, hlt, fun q hq => ?_⟩
          rw [hqq] at hq
          exact finalQty_bounds hq (fun k hk' => stratChain_q hk')
        · exact absurd h (by simp)

theorem fbKeep_facts {nm : List Char} {q : Option Nat} {p : Option Dec}
    {it : ReceiptItem} {pv : Dec} (h : fbKeep nm q p = some (it, pv)) :
    Dec.blt ⟨0, 0⟩ pv = true := by
  unfold fbKeep at h
  split at h
  · rename_i hcond
    cases h
    simp only [Bool.and_eq_true, decide_eq_true_eq] at hcond
    exact hcond.1.2
  · exact absurd h (by simp)

theorem fallbackLineRes_keep {l : List Char} {it : ReceiptItem} {p : Dec}
    (h : fallbackLineRes l = some (it, p)) : Dec.blt ⟨0, 0⟩ p = true := by
  unfold fallbackLineRes at h
  split at h
  · exact absurd h (by simp)
  · split at h
    · exact fbKeep_facts h
    · exact absurd h (by simp)

theorem itemsAfterHeader_src {ls : List (List Char)} {it : ReceiptItem} {p : Dec}
    (h : (it, p) ∈ itemsAfterHeader ls) : ∃ l, headerLineRes l = .keep it p := by
  induction ls with
  | nil => simp [itemsAfterHeader] at h
  | cons l rest ih =>
    unfold itemsAfterHeader at h
    split at h
    · simp at h
    · exact ih h
    · rename_i it' p' hr
      rcases List.mem_cons.mp h with he | hmem
      · injection he with h1 h2
        exact ⟨l, by rw [hr, h1, h2]⟩
      · exact ih hmem

theorem fallbackItems_src {lines : List (List Char)} {it : ReceiptItem} {p : Dec}
    (h : (it, p) ∈ fallbackItems lines) : ∃ l, fallbackLineRes l = some (it, p) := by
  unfold fallbackItems at h
  obtain ⟨l, _, hl⟩ := List.mem_filterMap.mp h
  exact ⟨l, hl⟩

theorem extractItems_src {lines : List (List Char)} {it : ReceiptItem} {p : Dec}
    (h : (it, p) ∈ extractItems lines) :
    ∃ l, headerLineRes l = .keep it p ∨ fallbackLineRes l = some (it, p) := by
  unfold extractItems at h
  split at h
  · obtain ⟨l, hl⟩ := itemsAfterHeader_src h
    exact ⟨l, Or.inl hl⟩
  · obtain ⟨l, hl⟩ := fallbackItems_src h
    exact ⟨l, Or.inr hl⟩

theorem extractItems_price {lines : List (List Char)} {it : ReceiptItem} {p : Dec}
    (h : (it, p) ∈ extractItems lines) : Dec.blt ⟨0, 0⟩ p = true := by
  obtain ⟨l, hl | hl⟩ := extractItems_src h
  · exact (headerLineRes_keep hl).1
  · exact fallbackLineRes_keep hl

theorem parse_items_src {t : String} {w : Option (List OcrWord)} {y : Nat}
    {it : ReceiptItem} (h : it ∈ (parseReceiptText t w y).items) :
    ∃ p : Dec, (it, p) ∈ extractItems (splitLines t) := by
  obtain ⟨⟨it', p⟩, hmem, hfst⟩ := List.mem_map.mp h
  cases hfst
  exact ⟨p, hmem⟩

/-- C2 counterexample: on the plain line "Foo 0 0.99" (no header row, so
the fallback item path runs) the engine outputs an item whose quantity is
0, which is outside `[1, 999]` — the claim's quantity bound fails on the
code. -/
theorem claim2_counterexample :
    (parseReceiptText "Foo 0 0.99" none 2025).items =
      [⟨"Foo", some 0⟩] ∧ ¬(1 ≤ (0 : ℕ)) := by
  exact ⟨by decide, by omega⟩

/-- C2 amended: every output item was kept only because a price strictly
greater than 0 was found for its line; items produced by the header-table
path additionally have that internal price below 1000000 and quantity,
when present, in `[1, 999]`.  (The no-header fallback path does not
bounds-check the quantity it outputs, as the counterexample shows.) -/
theorem claim2_amended_bounds :
    (∀ (lines : List (List Char)) (itp : ReceiptItem × Dec),
      itp ∈ extractItems lines → 0 < itp.2.toQ) ∧
    (∀ (ls : List (List Char)) (itp : ReceiptItem × Dec),
      itp ∈ itemsAfterHeader ls →
        itp.2.toQ < 1000000 ∧ ∀ q, itp.1.quantity = some q → 1 ≤ q ∧ q ≤ 999) ∧
    (∀ (t : String) (w : Option (List OcrWord)) (y : Nat) (it : ReceiptItem),
      it ∈ (parseReceiptText t w y).items →
        ∃ p : Dec, (it, p) ∈ extractItems (splitLines t) ∧ 0 < p.toQ) := by
  refine ⟨?_, ?_, ?_⟩
  · rintro lines ⟨it, p⟩ h
    exact Dec.blt_zero_left (extractItems_price h)
  · rintro ls ⟨it, p⟩ h
    obtain ⟨l, hl⟩ := itemsAfterHeader_src h
    obtain ⟨_, hb1, hq⟩ := headerLineRes_keep hl
    exact ⟨Dec.blt_mil_right hb1, hq⟩
  · intro t w y it h
    obtain ⟨p, hp⟩ := parse_items_src h
    exact ⟨p, hp, Dec.blt_zero_left (extractItems_price hp)⟩

/-- Witness for C2 (amended) on a concrete kept item. -/
theorem claim2_witness :
    0 < (Dec.toQ ⟨399, 2⟩) ∧
    (Dec.toQ ⟨399, 2⟩ < 1000000 ∧
      ∀ q, (ReceiptItem.mk "Milk" (some 2)).quantity = some q → 1 ≤ q ∧ q ≤ 999) := by
  constructor
  · exact claim2_amended_bounds.1 [chars "Milk 2 3.99"] (⟨"Milk", some 2⟩, ⟨399, 2⟩)
      (by decide)
  · exact claim2_amended_bounds.2.1 [chars "Milk 2 3.99"] (⟨"Milk", some 2⟩, ⟨399, 2⟩)
      (by decide)

/-- C10: an output item carries only a name and an optional quantity (two
items with the same name and quantity are equal — there is no price field
in the output), yet every output item originates from a line whose parse
found a positive internal price, used only as the keep criterion. -/
theorem claim10_items_only_name_qty :
    (∀ a b : ReceiptItem, a.name = b.name → a.quantity = b.quantity → a = b) ∧
    (∀ (t : String) (w : Option (List OcrWord)) (y : Nat) (it : ReceiptItem),
      it ∈ (parseReceiptText t w y).items →
        ∃ (l : List Char) (p : Dec), 0 < p.toQ ∧
          (headerLineRes l = .keep it p ∨ fallbackLineRes l = some (it, p))) := by
  constructor
  · intro a b h1 h2
    cases a
    cases b
    cases h1
    cases h2
    rfl
  · intro t w y it h
    obtain ⟨p, hp⟩ := parse_items_src h
    obtain ⟨l, hl⟩ := extractItems_src hp
    exact ⟨l, p, Dec.blt_zero_left (extractItems_price hp), hl⟩

/-- Witness for C10 on a concrete parse. -/
theorem claim10_witness :
    ∃ (l : List Char) (p : Dec), 0 < p.toQ ∧
      (headerLineRes l = .keep ⟨"Foo", some 0⟩ p ∨
        fallbackLineRes l = some (⟨"Foo", some 0⟩, p)) :=
  claim10_items_only_name_qty.2 "Foo 0 0.99" none 2025 ⟨"Foo", some 0⟩ (by decide)

/-- C8: when the engine's recognize call faults, `extractData` fails with
the wrapped recognition error and has already discarded the engine
instance (`worker = null`), so the next call's initialization creates a
fresh instance with an identifier the faulted instance never had. -/
theorem claim8_adapter_self_healing
    (beh : Nat → String → Except String RecognizeData) (y : Nat)
    (s : OCRServiceState) (img e : String) (w : Nat)
    (hwf : ∀ i, s.worker = some i → i < s.nextId)
    (hw : (serviceInit s).worker = some w)
    (hfault : beh w img = .error e) :
    (extractDataCall beh y s img).1 = .error ("OCR data extraction failed: " ++ e) ∧
    (extractDataCall beh y s img).2.worker = none ∧
    (serviceInit (extractDataCall beh y s img).2).worker =
      some (extractDataCall beh y s img).2.nextId ∧
    w < (extractDataCall beh y s img).2.nextId := by
  have hres : extractDataCall beh y s img =
      (.error ("OCR data extraction failed: " ++ e),
       { serviceInit s with worker := none }) := by
    simp only [extractDataCall]
    rw [hw]
    dsimp only
    rw [hfault]
  have hn : w < (serviceInit s).nextId := by
    unfold serviceInit at hw ⊢
    rcases hs : s.worker with _ | w0
    · rw [hs] at hw
      simp only [Option.isSome_none, Bool.false_eq_true, if_false] at hw ⊢
      cases hw
      omega
    · rw [hs] at hw
      simp only [Option.isSome_some, if_true] at hw ⊢
      rw [hs] at hw
      cases hw
      exact hwf w hs
  rw [hres]
  exact ⟨rfl, rfl, rfl, hn⟩

/-- Witness for C8 with a concretely faulting engine. -/
theorem claim8_witness :
    (extractDataCall (fun _ _ => .error "boom") 2025 ⟨none, 0⟩ "img").1 =
      .error ("OCR data extraction failed: " ++ "boom") ∧
    (extractDataCall (fun _ _ => .error "boom") 2025 ⟨none, 0⟩ "img").2.worker = none ∧
    (serviceInit (extractDataCall (fun _ _ => .error "boom") 2025 ⟨none, 0⟩ "img").2).worker =
      some (extractDataCall (fun _ _ => .error "boom") 2025 ⟨none, 0⟩ "img").2.nextId ∧
    0 < (extractDataCall (fun _ _ => .error "boom") 2025 ⟨none, 0⟩ "img").2.nextId :=
  claim8_adapter_self_healing (fun _ _ => .error "boom") 2025 ⟨none, 0⟩ "img" "boom" 0
    (fun i hi => by simp at hi) rfl rfl

/-- C9 counterexample: with the file absent at both candidate paths, the
worker has already reported progress 10 although no file verification ever
succeeded — progress 10 is emitted before the file is verified, not
after, so the claimed milestone order fails on the code. -/
theorem claim9_counterexample :
    (processJob ⟨fun _ => false, "uploads", fun _ => .error "engine", .error "db"⟩
        ⟨"/tmp/a.png", "a.png", "img", none⟩).2 =
      [.progress 10, .fileCheck "uploads/a.png" false] ∧
    ((processJob ⟨fun _ => false, "uploads", fun _ => .error "engine", .error "db"⟩
        ⟨"/tmp/a.png", "a.png", "img", none⟩).2.all
      (fun ev => match ev with | .fileCheck _ true => false | _ => true)) = true ∧
    (processJob ⟨fun _ => false, "uploads", fun _ => .error "engine", .error "db"⟩
        ⟨"/tmp/a.png", "a.png", "img", none⟩).1 =
      .error "File not found: /tmp/a.png or uploads/a.png" := by
  refine ⟨rfl, rfl, rfl⟩

/-- C9 amended: the worker reports progress 10 when the job starts
(before file verification); it then verifies the file, trying the literal
payload path and falling back to the path reconstructed from the upload
root, reports 20 when recognition starts, 70 when recognition completes,
and 100 after the extracted data is persisted. -/
theorem claim9_amended_milestones (env : WorkerEnv) (jd : OCRJobData) (rid : Nat)
    (d : ExtractedData)
    (hfind : env.fsExists (if env.fsExists jd.filePath then jd.filePath
      else pathJoin env.uploadDir jd.filename) = true)
    (hrec : env.recog (if env.fsExists jd.filePath then jd.filePath
      else pathJoin env.uploadDir jd.filename) = .ok d)
    (hper : env.persistRes = .ok rid) :
    processJob env jd = (.ok rid,
      [.progress 10,
       .fileCheck (if env.fsExists jd.filePath then jd.filePath
         else pathJoin env.uploadDir jd.filename) true,
       .progress 20, .recognized, .progress 70, .persisted, .progress 100]) := by
  simp only [processJob]
  rw [hfind, hrec, hper]
  rfl

/-- Witness for C9 (amended): a run that finds the file only through the
upload-root reconstruction. -/
theorem claim9_witness :
    processJob ⟨fun p => p == "uploads/a.png", "uploads",
        fun _ => .ok ⟨none, none, none, []⟩, .ok 7⟩
      ⟨"/gone/a.png", "a.png", "img", some "r1"⟩ =
      (.ok 7,
       [.progress 10, .fileCheck "uploads/a.png" true, .progress 20, .recognized,
        .progress 70, .persisted, .progress 100]) :=
  claim9_amended_milestones ⟨fun p => p == "uploads/a.png", "uploads",
      fun _ => .ok ⟨none, none, none, []⟩, .ok 7⟩
    ⟨"/gone/a.png", "a.png", "img", some "r1"⟩ 7 ⟨none, none, none, []⟩ rfl rfl rfl

end Shewaber
